import Mathlib

/-!
# Verification of the Auto-Clip rendering pipeline

Shallow embedding of the clip-rendering core of the Auto-Clip repository
(`content-bot/utils/time_utils.py`, `animated_captions.py`, `processor.py`,
`face_tracker.py`) together with proofs of the specification's claims.

Strings are modelled as `List Char` (`Str`), Python floats as exact
rationals `ℚ`, and the effectful pipeline (`processor.create_final_clip`)
as a state-threading function over an explicit stream of external-world
outcomes (subprocess exit codes, file-write results, the `random` module's
stream of picks).
-/

abbrev Str := List Char

deriving instance DecidableEq for Except

/-- Characters Python's `str.split` / `str.strip` treat as whitespace
(the ASCII subset, which is all the repository's inputs use). -/
def pyIsSpace (c : Char) : Bool :=
  c = ' ' ∨ c = '\t' ∨ c = '\n' ∨ c = '\x0b' ∨ c = '\x0c' ∨ c = '\r'

/-- `str.strip()` with no arguments: drop leading and trailing whitespace. -/
def pyStrip (s : Str) : Str :=
  ((s.dropWhile pyIsSpace).reverse.dropWhile pyIsSpace).reverse

/-- Worker for `pySplit`: `acc` is the word currently being read, reversed. -/
def pySplitGo : Str → Str → List Str
  | [], acc => if acc = [] then [] else [acc.reverse]
  | c :: cs, acc =>
    if pyIsSpace c then
      if acc = [] then pySplitGo cs [] else acc.reverse :: pySplitGo cs []
    else pySplitGo cs (c :: acc)

/-- Python's `str.split()` with no arguments: split on runs of whitespace,
discarding empty pieces. -/
def pySplit (s : Str) : List Str := pySplitGo s []

/-- Python's `str.replace(needle, repl)`: replace non-overlapping
occurrences left to right, without rescanning replacements.  (Python's
behaviour for an empty needle is not used by the repository; we return
the string unchanged in that case.) -/
def pyReplace (needle repl : Str) : Str → Str
  | [] => []
  | c :: rest =>
    if needle ≠ [] ∧ needle.isPrefixOf (c :: rest) then
      repl ++ pyReplace needle repl ((c :: rest).drop needle.length)
    else
      c :: pyReplace needle repl rest
termination_by s => s.length
decreasing_by
  · simp only [List.length_drop, List.length_cons]
    have hlen : 1 ≤ needle.length := by
      rcases needle with _ | ⟨a, l⟩
      · exact absurd rfl (by tauto)
      · simp
    omega
  · simp

/-- Decimal digits of a natural number, with explicit fuel so that the
kernel can evaluate it (`f"{n}"`). -/
def natDigitsGo : ℕ → ℕ → Str
  | 0, _ => []
  | fuel + 1, n => if n = 0 then [] else natDigitsGo fuel (n / 10) ++ [Nat.digitChar (n % 10)]

def natToStr (n : ℕ) : Str :=
  if n = 0 then ['0'] else natDigitsGo (n + 1) n

/-- Python's `str(int)`. -/
def intToStr (n : ℤ) : Str :=
  if n < 0 then '-' :: natToStr n.natAbs else natToStr n.toNat

/-- Python's `f"{n:0wd}"` on an integer: left-pad with `'0'` to width `w`
(the sign, when present, counts towards the width and precedes the pad,
matching CPython). -/
def intPad (w : ℕ) (n : ℤ) : Str :=
  if n < 0 then
    '-' :: List.replicate (w - 1 - (natToStr n.natAbs).length) '0' ++ natToStr n.natAbs
  else
    List.replicate (w - (natToStr n.toNat).length) '0' ++ natToStr n.toNat

/-- Python's `round` on an exact value: round half to even
(banker's rounding). -/
def pyRound (q : ℚ) : ℤ :=
  let f := q.floor
  let r := q - (f : ℚ)
  if r < 1 / 2 then f
  else if 1 / 2 < r then f + 1
  else if 2 ∣ f then f else f + 1

/-- Python's `int()` on an exact value: truncate toward zero. -/
def pyInt (q : ℚ) : ℤ :=
  if 0 ≤ q then q.floor else q.ceil

/-! ## `time_utils.format_timestamp` -/

/-- Rendering of the `'srt'` branch from the computed total-millisecond
count (`time_utils.py` lines 20-25). -/
def renderSrtTotal (total_millis : ℤ) : Str :=
  let hours := total_millis.ediv 3600000
  let minutes := (total_millis.emod 3600000).ediv 60000
  let secs := (total_millis.emod 60000).ediv 1000
  let millis := total_millis.emod 1000
  intPad 2 hours ++ [':'] ++ intPad 2 minutes ++ [':'] ++ intPad 2 secs
    ++ [','] ++ intPad 3 millis

/-- Rendering of the `'ass'` branch from the computed total-centisecond
count (`time_utils.py` lines 28-33); the hour field has no width. -/
def renderAssTotal (total_cs : ℤ) : Str :=
  let hours := total_cs.ediv 360000
  let minutes := (total_cs.emod 360000).ediv 6000
  let secs := (total_cs.emod 6000).ediv 100
  let centiseconds := total_cs.emod 100
  intToStr hours ++ [':'] ++ intPad 2 minutes ++ [':'] ++ intPad 2 secs
    ++ ['.'] ++ intPad 2 centiseconds

/-- `time_utils.format_timestamp`.  Python `//` and `%` on non-negative
operands coincide with `Int.ediv`/`Int.emod`; an unknown format type
raises `ValueError`, modelled as `Except.error`. -/
def format_timestamp (seconds : ℚ) (format_type : Str) : Except Str Str :=
  if format_type = "srt".data then
    .ok (renderSrtTotal (pyRound (seconds * 1000)))
  else if format_type = "ass".data then
    .ok (renderAssTotal (pyRound (seconds * 100)))
  else
    .error ("Unknown format type: ".data ++ format_type)

lemma ratFloor_eq_intFloor (q : ℚ) : q.floor = ⌊q⌋ := by
  rw [Rat.floor_def', ← Rat.floor_def]

lemma pyRound_eq_of {q : ℚ} {n : ℤ} (h : q = (n : ℚ)) : pyRound q = n := by
  subst h
  unfold pyRound
  rw [ratFloor_eq_intFloor]
  norm_num

lemma format_timestamp_srt_eval {q : ℚ} {n : ℤ} (h : q * 1000 = (n : ℚ)) :
    format_timestamp q "srt".data = .ok (renderSrtTotal n) := by
  unfold format_timestamp
  rw [if_pos rfl, pyRound_eq_of h]

lemma format_timestamp_ass_eval {q : ℚ} {n : ℤ} (h : q * 100 = (n : ℚ)) :
    format_timestamp q "ass".data = .ok (renderAssTotal n) := by
  unfold format_timestamp
  rw [if_neg (by decide), if_pos rfl, pyRound_eq_of h]

example : format_timestamp 0 "srt".data = .ok "00:00:00,000".data := by
  rw [format_timestamp_srt_eval (n := 0) (by norm_num)]; decide
example : format_timestamp 3661 "srt".data = .ok "01:01:01,000".data := by
  rw [format_timestamp_srt_eval (n := 3661000) (by norm_num)]; decide
example : format_timestamp 1.999 "srt".data = .ok "00:00:01,999".data := by
  rw [format_timestamp_srt_eval (n := 1999) (by norm_num)]; decide
example : format_timestamp 0 "ass".data = .ok "0:00:00.00".data := by
  rw [format_timestamp_ass_eval (n := 0) (by norm_num)]; decide
example : format_timestamp 3661 "ass".data = .ok "1:01:01.00".data := by
  rw [format_timestamp_ass_eval (n := 366100) (by norm_num)]; decide
example : format_timestamp 1.99 "ass".data = .ok "0:00:01.99".data := by
  rw [format_timestamp_ass_eval (n := 199) (by norm_num)]; decide

/-- Rounding half away from zero, as the spec's words describe it
("a value exactly half a subunit above an integer subunit count rounds
up").  Modelled from the spec for comparison with the code's `pyRound`;
the code itself uses Python's `round`. -/
def roundHalfAwayFromZero (q : ℚ) : ℤ :=
  if 0 ≤ q then ⌊q + 1 / 2⌋ else ⌈q - 1 / 2⌉

lemma pyRound_tie {x : ℚ} (h : x - (⌊x⌋ : ℚ) = 1 / 2) :
    pyRound x = if 2 ∣ ⌊x⌋ then ⌊x⌋ else ⌊x⌋ + 1 := by
  simp only [pyRound, ratFloor_eq_intFloor, h]
  norm_num

lemma floor_int_add_half (n : ℤ) : ⌊(n : ℚ) + 1 / 2⌋ = n := by
  have h0 : ⌊(1 / 2 : ℚ)⌋ = 0 := by
    rw [Int.floor_eq_iff] <;> norm_num
  rw [Int.floor_int_add, h0, add_zero]

/-- C4: the timestamp formatter returns exactly the specified strings on
the six specified inputs; in particular the `'ass'` (trackB) hour field
is a bare digit while the `'srt'` (trackA) hour field is zero-padded to
width 2. -/
theorem claim_C4_timestamp_formatter_examples :
    format_timestamp 0 "srt".data = .ok "00:00:00,000".data
    ∧ format_timestamp 3661 "srt".data = .ok "01:01:01,000".data
    ∧ format_timestamp 1.999 "srt".data = .ok "00:00:01,999".data
    ∧ format_timestamp 0 "ass".data = .ok "0:00:00.00".data
    ∧ format_timestamp 3661 "ass".data = .ok "1:01:01.00".data
    ∧ format_timestamp 1.99 "ass".data = .ok "0:00:01.99".data := by
  refine ⟨?_, ?_, ?_, ?_, ?_, ?_⟩
  · rw [format_timestamp_srt_eval (n := 0) (by norm_num)]; decide
  · rw [format_timestamp_srt_eval (n := 3661000) (by norm_num)]; decide
  · rw [format_timestamp_srt_eval (n := 1999) (by norm_num)]; decide
  · rw [format_timestamp_ass_eval (n := 0) (by norm_num)]; decide
  · rw [format_timestamp_ass_eval (n := 366100) (by norm_num)]; decide
  · rw [format_timestamp_ass_eval (n := 199) (by norm_num)]; decide

/-- C5 counterexample: at `seconds = 1/400` (exactly 2.5 ms, half a
millisecond above 2 ms) rounding half away from zero would give 3 ms,
but the formatter emits 2 ms — Python's `round` rounds half to even, so
the claim's "rounds half away from zero" is false on the code. -/
theorem claim_C5_counterexample_half_to_even :
    roundHalfAwayFromZero ((1 / 400 : ℚ) * 1000) = 3
    ∧ pyRound ((1 / 400 : ℚ) * 1000) = 2
    ∧ format_timestamp (1 / 400) "srt".data = .ok "00:00:00,002".data
    ∧ .ok "00:00:00,002".data ≠
        (.ok (renderSrtTotal (roundHalfAwayFromZero ((1 / 400 : ℚ) * 1000)))
          : Except Str Str) := by
  have hval : (1 / 400 : ℚ) * 1000 = (2 : ℤ) + 1 / 2 := by norm_num
  have hfloor : ⌊(1 / 400 : ℚ) * 1000⌋ = 2 := by
    rw [hval, floor_int_add_half]
  have haway : roundHalfAwayFromZero ((1 / 400 : ℚ) * 1000) = 3 := by
    unfold roundHalfAwayFromZero
    rw [if_pos (by norm_num), show (1 / 400 : ℚ) * 1000 + 1 / 2 = ((3 : ℤ) : ℚ) by norm_num]
    exact Int.floor_intCast 3
  have hpy : pyRound ((1 / 400 : ℚ) * 1000) = 2 := by
    rw [pyRound_tie (by rw [hfloor]; push_cast; norm_num), hfloor]
    decide
  refine ⟨haway, hpy, ?_, ?_⟩
  · unfold format_timestamp
    rw [if_pos rfl, hpy]; decide
  · rw [haway]; decide

/-- C5 (amended): for every non-negative second value the formatter
rounds once on the total-subunit integer (total milliseconds for
`'srt'`, total centiseconds for `'ass'`) rather than per field, and a
value exactly half a subunit above an integer subunit count rounds half
to even (Python's `round`), not half away from zero. -/
theorem claim_C5_rounding_once_half_to_even (q : ℚ) (h : 0 ≤ q) :
    format_timestamp q "srt".data = .ok (renderSrtTotal (pyRound (q * 1000)))
    ∧ format_timestamp q "ass".data = .ok (renderAssTotal (pyRound (q * 100)))
    ∧ (q * 1000 - (⌊q * 1000⌋ : ℚ) = 1 / 2 →
        pyRound (q * 1000) = if 2 ∣ ⌊q * 1000⌋ then ⌊q * 1000⌋ else ⌊q * 1000⌋ + 1)
    ∧ (q * 100 - (⌊q * 100⌋ : ℚ) = 1 / 2 →
        pyRound (q * 100) = if 2 ∣ ⌊q * 100⌋ then ⌊q * 100⌋ else ⌊q * 100⌋ + 1) := by
  refine ⟨rfl, rfl, fun ht => pyRound_tie ht, fun ht => pyRound_tie ht⟩

/-- C5 witness: the amended theorem applied at the concrete input
`1/400` seconds, whose total-millisecond value 2.5 is an exact tie. -/
theorem claim_C5_witness :
    0 ≤ (1 / 400 : ℚ)
    ∧ (format_timestamp (1 / 400 : ℚ) "srt".data
          = .ok (renderSrtTotal (pyRound ((1 / 400 : ℚ) * 1000)))
      ∧ format_timestamp (1 / 400 : ℚ) "ass".data
          = .ok (renderAssTotal (pyRound ((1 / 400 : ℚ) * 100)))
      ∧ ((1 / 400 : ℚ) * 1000 - (⌊(1 / 400 : ℚ) * 1000⌋ : ℚ) = 1 / 2 →
          pyRound ((1 / 400 : ℚ) * 1000)
            = if 2 ∣ ⌊(1 / 400 : ℚ) * 1000⌋ then ⌊(1 / 400 : ℚ) * 1000⌋
              else ⌊(1 / 400 : ℚ) * 1000⌋ + 1)
      ∧ ((1 / 400 : ℚ) * 100 - (⌊(1 / 400 : ℚ) * 100⌋ : ℚ) = 1 / 2 →
          pyRound ((1 / 400 : ℚ) * 100)
            = if 2 ∣ ⌊(1 / 400 : ℚ) * 100⌋ then ⌊(1 / 400 : ℚ) * 100⌋
              else ⌊(1 / 400 : ℚ) * 100⌋ + 1)) :=
  ⟨by norm_num, claim_C5_rounding_once_half_to_even (1 / 400) (by norm_num)⟩

/-! ## Caption builders (`animated_captions.py`, `processor.generate_srt_from_segments`)

Transcript segments are `{start, end, text}` dicts; the Python key `end`
is a Lean keyword, so the field is named `stop`. -/

structure Seg where
  start : ℚ
  stop : ℚ
  text : Str
deriving Repr, DecidableEq

/-- The subset of `config.CAPTION_SETTINGS` the caption builders read
(`settings.get(...)` defaults are the callers' concern; the generators
receive the resolved values). -/
structure CaptionSettings where
  highlight_color : Str
  words_per_line : ℕ

/-- `animated_captions.sanitize_ass_text`: the three chained
`str.replace` calls (each needle is a single character). -/
def sanitize_ass_text (text : Str) : Str :=
  pyReplace "\\".data "＼".data
    (pyReplace "\x7d".data "｝".data
      (pyReplace "\x7b".data "｛".data text))

/-- The per-character substitution `sanitize_ass_text` amounts to. -/
def glyphSub (c : Char) : Char :=
  if c = '{' then '｛' else if c = '}' then '｝' else if c = '\\' then '＼' else c

/-- `"&H00FFFFFF"`, the hard-coded primary colour. -/
def primary_color : Str := "&H00FFFFFF".data

/-- The opening markup injected before the active word:
`f"{{\\c{highlight_color}\\fscx120\\fscy120}}"`. -/
def activeOpen (hl : Str) : Str :=
  "\x7b\\c".data ++ hl ++ "\\fscx120\\fscy120\x7d".data

/-- The reset markup injected after the active word:
`f"{{\\c{primary_color}\\fscx100\\fscy100}}"`. -/
def activeClose : Str :=
  "\x7b\\c".data ++ primary_color ++ "\\fscx100\\fscy100\x7d".data

/-- One step of the `for j, w in enumerate(batch_words)` loop: the text
appended to `formatted_text` for word `w` at position `j` when the
active index is `i`. -/
def renderWordTok (hl : Str) (i : ℕ) (jw : ℕ × Str) : Str :=
  if jw.1 = i then
    activeOpen hl ++ sanitize_ass_text jw.2 ++ activeClose ++ [' ']
  else
    sanitize_ass_text jw.2 ++ [' ']

/-- `formatted_text` for highlight frame `i` of a batch (the inner
accumulation loop followed by `.strip()`). -/
def formattedText (hl : Str) (batch : List Str) (i : ℕ) : Str :=
  pyStrip (batch.enum.map (renderWordTok hl i)).flatten

/-- Python's `sep.join(list)`. -/
def pyJoin (sep : Str) : List Str → Str
  | [] => []
  | [w] => w
  | w :: ws => w ++ sep ++ pyJoin sep ws

/-- The spec-shaped rendering of a highlight frame: all batch words
sanitized, in order, joined by single spaces, with exactly the `i`-th
wrapped in the highlight markup.  Used to state what `formattedText`
produces. -/
def renderBatchSpec (hl : Str) (batch : List Str) (i : ℕ) : Str :=
  pyJoin [' ']
    (batch.enum.map fun jw =>
      if jw.1 = i then activeOpen hl ++ sanitize_ass_text jw.2 ++ activeClose
      else sanitize_ass_text jw.2)

/-- One emitted caption event (a `Dialogue:` line before rendering). -/
structure AssEvent where
  start : ℚ
  stop : ℚ
  text : Str

/-- The `for i in range(len(batch_words))` loop: one event per active
word index `i`, with `frame_start/frame_end` as in the source. -/
def eventsForBatch (hl : Str) (batch : List Str) (t0 tpbw : ℚ) : List AssEvent :=
  (List.range batch.length).map fun (i : ℕ) =>
    ⟨t0 + (i : ℚ) * tpbw, t0 + ((i : ℚ) + 1) * tpbw, formattedText hl batch i⟩

/-- The `while current_word_idx < num_words` loop of both builders,
viewed as the list of `(current_word_idx, words[current:current+wpb])`
pairs it visits.  Fuel-based so the kernel can evaluate it; for
`wpb = 0` the Python loop does not terminate normally (it raises
`ZeroDivisionError` on an empty batch), so all theorems assume
`0 < wpb`. -/
def chunkOffGo (wpb : ℕ) : ℕ → ℕ → List Str → List (ℕ × List Str)
  | 0, _, _ => []
  | _, _, [] => []
  | fuel + 1, off, w :: ws =>
    (off, w :: ws.take (wpb - 1)) :: chunkOffGo wpb fuel (off + wpb) (ws.drop (wpb - 1))

def chunkOff (wpb : ℕ) (ws : List Str) : List (ℕ × List Str) :=
  chunkOffGo wpb ws.length 0 ws

/-- All events `generate_animated_ass` emits for one segment
(`animated_captions.py` lines 58-106). -/
def eventsForSeg (hl : Str) (wpb : ℕ) (sg : Seg) : List AssEvent :=
  let words := pySplit (pyStrip sg.text)
  if words = [] then []
  else
    let tpw : ℚ := (sg.stop - sg.start) / (max words.length 1 : ℕ)
    (chunkOff wpb words).flatMap fun ob =>
      let bst := sg.start + (ob.1 : ℚ) * tpw
      let bet := sg.start + ((ob.1 + ob.2.length : ℕ) : ℚ) * tpw
      eventsForBatch hl ob.2 bst ((bet - bst) / (ob.2.length : ℚ))

/-- The event list `generate_animated_ass` writes (the fixed header
block carries no input text and is omitted from the model). -/
def generate_animated_ass_events (segs : List Seg) (st : CaptionSettings) : List AssEvent :=
  segs.flatMap (eventsForSeg st.highlight_color st.words_per_line)

/-- `format_timestamp(t, 'ass')`, as a total function on the value. -/
def formatAss (t : ℚ) : Str := renderAssTotal (pyRound (t * 100))

/-- One `Dialogue:` line of the generated file; `e.text` is its
caption-text region. -/
def dialogueLine (e : AssEvent) : Str :=
  "Dialogue: 0,".data ++ formatAss e.start ++ ",".data ++ formatAss e.stop
    ++ ",Default,,0,0,0,,".data ++ e.text ++ "\n".data

/-! ### Structure of `sanitize_ass_text` -/

lemma singleton_isPrefixOf (a c : Char) (cs : Str) :
    [a].isPrefixOf (c :: cs) = (a == c) := by
  simp [List.isPrefixOf]

lemma pyReplace_char (a b : Char) (s : Str) :
    pyReplace [a] [b] s = s.map fun c => if c = a then b else c := by
  induction s with
  | nil => simp [pyReplace]
  | cons c cs ih =>
    rw [pyReplace]
    by_cases hc : c = a
    · have hcond : ([a] : Str) ≠ [] ∧ [a].isPrefixOf (c :: cs) := by
        constructor
        · simp
        · simp [singleton_isPrefixOf, hc]
      rw [if_pos hcond]
      simp [hc, ih]
    · rw [if_neg]
      · simp [hc, ih]
      · rintro ⟨-, hp⟩
        rw [singleton_isPrefixOf] at hp
        have ha : a = c := by simpa using hp
        exact hc ha.symm

lemma sanitize_eq_map (t : Str) : sanitize_ass_text t = t.map glyphSub := by
  unfold sanitize_ass_text
  simp only [String.data]
  rw [pyReplace_char, pyReplace_char, pyReplace_char, List.map_map, List.map_map]
  refine List.map_congr_left fun c _ => ?_
  simp only [Function.comp_apply, glyphSub]
  by_cases h1 : c = '{'
  · subst h1; decide
  by_cases h2 : c = '}'
  · subst h2; decide
  by_cases h3 : c = '\\'
  · subst h3; decide
  simp [h1, h2, h3]

lemma glyphSub_ne_special (c : Char) :
    glyphSub c ≠ '{' ∧ glyphSub c ≠ '}' ∧ glyphSub c ≠ '\\' := by
  unfold glyphSub
  split_ifs with h1 h2 h3
  · exact ⟨by decide, by decide, by decide⟩
  · exact ⟨by decide, by decide, by decide⟩
  · exact ⟨by decide, by decide, by decide⟩
  · exact ⟨h1, h2, h3⟩

lemma sanitize_count_special (t : Str) :
    (sanitize_ass_text t).count '{' = 0 ∧ (sanitize_ass_text t).count '}' = 0
      ∧ (sanitize_ass_text t).count '\\' = 0 := by
  rw [sanitize_eq_map]
  refine ⟨List.count_eq_zero.2 ?_, List.count_eq_zero.2 ?_, List.count_eq_zero.2 ?_⟩ <;>
    · intro h
      obtain ⟨c, -, hc⟩ := List.mem_map.1 h
      have := glyphSub_ne_special c
      tauto

/-- Whitespace maps to whitespace status preserved: `glyphSub` never
turns a non-whitespace character into whitespace. -/
lemma glyphSub_space (c : Char) : pyIsSpace (glyphSub c) = pyIsSpace c := by
  unfold glyphSub
  split_ifs with h1 h2 h3
  · subst h1; decide
  · subst h2; decide
  · subst h3; decide
  · rfl

/-! ### Lemmas about `pySplit`, `pyStrip`, `pyJoin`, and word chunking -/

lemma pySplitGo_ne_nil (s : Str) : ∀ acc, acc ≠ [] → pySplitGo s acc ≠ [] := by
  induction s with
  | nil => intro acc h; simp [pySplitGo, h]
  | cons c cs ih =>
    intro acc h
    rw [pySplitGo]
    split
    · simp [h]
    · exact ih (c :: acc) (by simp)

lemma pySplitGo_words (s : Str) :
    ∀ acc, (∀ c ∈ acc, pyIsSpace c = false) →
      ∀ w ∈ pySplitGo s acc, w ≠ [] ∧ ∀ c ∈ w, pyIsSpace c = false := by
  induction s with
  | nil =>
    intro acc hacc w hw
    rw [pySplitGo] at hw
    split at hw
    · simp at hw
    · rename_i hne
      rw [List.mem_singleton] at hw
      subst hw
      exact ⟨by simpa using hne, fun c hc => hacc c (by simpa using hc)⟩
  | cons c cs ih =>
    intro acc hacc w hw
    rw [pySplitGo] at hw
    split at hw
    · split at hw
      · exact ih [] (by simp) w hw
      · rename_i hne
        rcases List.mem_cons.1 hw with h | h
        · subst h
          exact ⟨by simpa using hne, fun d hd => hacc d (by simpa using hd)⟩
        · exact ih [] (by simp) w h
    · rename_i hcs
      refine ih (c :: acc) ?_ w hw
      intro d hd
      rcases List.mem_cons.1 hd with h | h
      · subst h; simpa using hcs
      · exact hacc d h

lemma pySplit_words (s : Str) :
    ∀ w ∈ pySplit s, w ≠ [] ∧ ∀ c ∈ w, pyIsSpace c = false :=
  pySplitGo_words s [] (by simp)

lemma pySplitGo_word (w : Str) (hw : ∀ c ∈ w, pyIsSpace c = false) :
    ∀ rest acc, pySplitGo (w ++ rest) acc = pySplitGo rest (w.reverse ++ acc) := by
  induction w with
  | nil => intro rest acc; simp
  | cons c w' ih =>
    intro rest acc
    have hc : pyIsSpace c = false := hw c (by simp)
    rw [List.cons_append, pySplitGo, if_neg (by simp [hc]),
      ih (fun d hd => hw d (by simp [hd])) rest (c :: acc)]
    simp

lemma pySplit_join (ws : List Str)
    (h : ∀ w ∈ ws, w ≠ [] ∧ ∀ c ∈ w, pyIsSpace c = false) :
    pySplit (pyJoin [' '] ws) = ws := by
  induction ws with
  | nil => rfl
  | cons w rest ih =>
    obtain ⟨hwne, hwsp⟩ := h w (by simp)
    cases rest with
    | nil =>
      show pySplitGo (pyJoin [' '] [w]) [] = [w]
      have : pyJoin [' '] [w] = w ++ [] := by simp [pyJoin]
      rw [this, pySplitGo_word w hwsp [] []]
      rw [pySplitGo, if_neg (by simp [List.reverse_eq_nil_iff, hwne])]
      simp
    | cons w2 rest2 =>
      show pySplitGo (pyJoin [' '] (w :: w2 :: rest2)) [] = w :: w2 :: rest2
      have hjoin : pyJoin [' '] (w :: w2 :: rest2)
          = w ++ (' ' :: pyJoin [' '] (w2 :: rest2)) := by
        show (w ++ [' ']) ++ pyJoin [' '] (w2 :: rest2) = _
        rw [List.append_assoc]
        rfl
      rw [hjoin, pySplitGo_word w hwsp _ [], List.append_nil, pySplitGo,
        if_pos (by decide), if_neg (by simp [List.reverse_eq_nil_iff, hwne])]
      rw [List.reverse_reverse]
      exact congrArg (w :: ·) (ih fun x hx => h x (by simp [hx]))

lemma pySplitGo_dropWhile (s : Str) :
    pySplitGo (s.dropWhile pyIsSpace) [] = pySplitGo s [] := by
  induction s with
  | nil => rfl
  | cons c cs ih =>
    by_cases hc : pyIsSpace c
    · rw [List.dropWhile_cons_of_pos hc, ih, pySplitGo, if_pos hc, if_pos rfl]
    · rw [List.dropWhile_cons_of_neg hc]

lemma pySplitGo_append_space {sp : Char} (hsp : pyIsSpace sp = true) (s : Str) :
    ∀ acc, pySplitGo (s ++ [sp]) acc = pySplitGo s acc := by
  induction s with
  | nil =>
    intro acc
    rw [List.nil_append]
    conv_lhs => rw [pySplitGo]
    conv_rhs => rw [pySplitGo]
    rw [if_pos hsp]
    split
    · rw [pySplitGo]; simp
    · rw [pySplitGo]; simp
  | cons c cs ih =>
    intro acc
    rw [List.cons_append]
    conv_lhs => rw [pySplitGo]
    conv_rhs => rw [pySplitGo]
    split
    · split
      · exact ih []
      · rw [ih []]
    · exact ih _

lemma pySplitGo_append_spaces (u : Str) (hu : ∀ c ∈ u, pyIsSpace c = true) :
    ∀ s acc, pySplitGo (s ++ u) acc = pySplitGo s acc := by
  induction u with
  | nil => intro s acc; simp
  | cons c u' ih =>
    intro s acc
    have : s ++ (c :: u') = (s ++ [c]) ++ u' := by simp
    rw [this, ih (fun d hd => hu d (by simp [hd])) (s ++ [c]) acc,
      pySplitGo_append_space (hu c (by simp)) s acc]

lemma pySplit_strip (s : Str) : pySplit (pyStrip s) = pySplit s := by
  unfold pySplit pyStrip
  rw [← pySplitGo_dropWhile s]
  set t := s.dropWhile pyIsSpace with ht
  have hdecomp : t = (t.reverse.dropWhile pyIsSpace).reverse
      ++ (t.reverse.takeWhile pyIsSpace).reverse := by
    conv_lhs => rw [← List.reverse_reverse t]
    rw [← List.reverse_append, List.takeWhile_append_dropWhile]
  conv_rhs => rw [hdecomp]
  rw [pySplitGo_append_spaces]
  intro c hc
  rw [List.mem_reverse] at hc
  exact List.mem_takeWhile_imp hc

lemma pyStrip_nil_of_pySplit_nil {s : Str} (h : pySplit s = []) : pyStrip s = [] := by
  have hall : s.dropWhile pyIsSpace = [] := by
    by_contra hne
    obtain ⟨c, cs, hcs⟩ := List.exists_cons_of_ne_nil hne
    have hc : pyIsSpace c = false := by
      have := List.head?_dropWhile_not pyIsSpace s
      rw [hcs] at this
      simpa using this
    have : pySplit s ≠ [] := by
      unfold pySplit
      rw [← pySplitGo_dropWhile s, hcs, pySplitGo, if_neg (by simp [hc])]
      exact pySplitGo_ne_nil cs [c] (by simp)
    exact this h
  unfold pyStrip
  rw [hall]
  simp

lemma chunkOffGo_flatten {wpb : ℕ} (hw : 0 < wpb) :
    ∀ fuel ws off, ws.length ≤ fuel →
      ((chunkOffGo wpb fuel off ws).map (·.2)).flatten = ws := by
  intro fuel
  induction fuel with
  | zero =>
    intro ws off hlen
    rw [List.length_eq_zero.1 (Nat.le_zero.1 hlen)]
    rfl
  | succ n ih =>
    intro ws off hlen
    cases ws with
    | nil => rfl
    | cons w ws' =>
      rw [chunkOffGo]
      simp only [List.map_cons, List.flatten_cons]
      rw [ih (ws'.drop (wpb - 1)) (off + wpb)
        (by rw [List.length_drop]; simp only [List.length_cons] at hlen; omega)]
      simp [List.take_append_drop]

lemma chunkOffGo_mem_subset {wpb : ℕ} :
    ∀ fuel ws off, ∀ ob ∈ chunkOffGo wpb fuel off ws, ∀ w ∈ ob.2, w ∈ ws := by
  intro fuel
  induction fuel with
  | zero => intro ws off ob hob; simp [chunkOffGo] at hob
  | succ n ih =>
    intro ws off ob hob w hw
    cases ws with
    | nil => simp [chunkOffGo] at hob
    | cons x ws' =>
      rw [chunkOffGo] at hob
      rcases List.mem_cons.1 hob with h | h
      · subst h
        rcases List.mem_cons.1 hw with h | h
        · simp [h]
        · exact List.mem_cons_of_mem _ (List.take_subset _ _ h)
      · exact List.mem_cons_of_mem _ (List.drop_subset _ _ (ih _ _ ob h w hw))

lemma chunkOffGo_batch_ne_nil {wpb : ℕ} :
    ∀ fuel ws off, ∀ ob ∈ chunkOffGo wpb fuel off ws, ob.2 ≠ [] := by
  intro fuel
  induction fuel with
  | zero => intro ws off ob hob; simp [chunkOffGo] at hob
  | succ n ih =>
    intro ws off ob hob
    cases ws with
    | nil => simp [chunkOffGo] at hob
    | cons x ws' =>
      rw [chunkOffGo] at hob
      rcases List.mem_cons.1 hob with h | h
      · subst h; simp
      · exact ih _ _ ob h

lemma chunkOffGo_batch_len {wpb : ℕ} (hw : 0 < wpb) :
    ∀ fuel ws off, ws.length ≤ fuel →
      ∀ ob ∈ chunkOffGo wpb fuel off ws,
        off ≤ ob.1 ∧ ob.2.length = min wpb (off + ws.length - ob.1) := by
  intro fuel
  induction fuel with
  | zero => intro ws off _ ob hob; simp [chunkOffGo] at hob
  | succ n ih =>
    intro ws off hlen ob hob
    cases ws with
    | nil => simp [chunkOffGo] at hob
    | cons x ws' =>
      rw [chunkOffGo] at hob
      rcases List.mem_cons.1 hob with h | h
      · subst h
        refine ⟨le_refl _, ?_⟩
        simp only [List.length_cons, List.length_take]
        omega
      · by_cases hlong : wpb - 1 ≤ ws'.length
        · obtain ⟨h1, h2⟩ := ih (ws'.drop (wpb - 1)) (off + wpb)
            (by rw [List.length_drop]; simp only [List.length_cons] at hlen; omega)
            ob h
          refine ⟨by omega, ?_⟩
          rw [h2, List.length_drop]
          congr 1
          simp only [List.length_cons]
          omega
        · have : ws'.drop (wpb - 1) = [] := List.drop_eq_nil_of_le (by omega)
          rw [this] at h
          cases n with
          | zero => simp [chunkOffGo] at h
          | succ m => simp [chunkOffGo] at h

/-! ### The rendered highlight-frame text -/

/-- A rendered word token: nonempty, and neither its first nor its last
character is whitespace (so `.strip()` only removes the separators the
builder itself appended). -/
def goodTok (t : Str) : Prop :=
  t ≠ [] ∧ (∀ c, t.head? = some c → pyIsSpace c = false)
    ∧ (∀ c, t.getLast? = some c → pyIsSpace c = false)

lemma renderWordTok_eq (hl : Str) (i : ℕ) (jw : ℕ × Str) :
    renderWordTok hl i jw
      = (if jw.1 = i then activeOpen hl ++ sanitize_ass_text jw.2 ++ activeClose
         else sanitize_ass_text jw.2) ++ [' '] := by
  unfold renderWordTok
  split_ifs <;> simp

lemma flatten_map_space (l : List Str) :
    l ≠ [] → (l.map (· ++ [' '])).flatten = pyJoin [' '] l ++ [' '] := by
  induction l with
  | nil => intro h; exact absurd rfl h
  | cons w rest ih =>
    intro _
    cases rest with
    | nil => simp [pyJoin]
    | cons w2 rest2 =>
      rw [List.map_cons, List.flatten_cons, ih (by simp)]
      show _ = (w ++ [' '] ++ pyJoin [' '] (w2 :: rest2)) ++ [' ']
      simp

lemma pyJoin_ne_nil (l : List Str) (h0 : l ≠ []) (h : ∀ w ∈ l, w ≠ []) :
    pyJoin [' '] l ≠ [] := by
  cases l with
  | nil => exact absurd rfl h0
  | cons w rest =>
    cases rest with
    | nil => exact h w (by simp)
    | cons w2 rest2 =>
      show (w ++ [' ']) ++ pyJoin [' '] (w2 :: rest2) ≠ []
      simp

lemma pyJoin_head? (t : Str) (ts : List Str) (ht : t ≠ []) :
    (pyJoin [' '] (t :: ts)).head? = t.head? := by
  cases ts with
  | nil => rfl
  | cons w2 rest2 =>
    obtain ⟨c, t', rfl⟩ := List.exists_cons_of_ne_nil ht
    show ((c :: t') ++ [' '] ++ pyJoin [' '] (w2 :: rest2)).head? = _
    simp

lemma pyJoin_getLast? : ∀ (ts : List Str) (t : Str), (∀ w ∈ ts, w ≠ []) → t ≠ [] →
    (pyJoin [' '] (ts ++ [t])).getLast? = t.getLast? := by
  intro ts
  induction ts with
  | nil => intro t _ _; rfl
  | cons u ts' ih =>
    intro t hts ht
    have hne : pyJoin [' '] (ts' ++ [t]) ≠ [] := by
      refine pyJoin_ne_nil _ (by simp) ?_
      intro w hw
      rcases List.mem_append.1 hw with h | h
      · exact hts w (by simp [h])
      · rw [List.mem_singleton] at h; subst h; exact ht
    have harm : pyJoin [' '] ((u :: ts') ++ [t])
        = (u ++ [' ']) ++ pyJoin [' '] (ts' ++ [t]) := by
      cases ts' <;> rfl
    rw [harm, List.getLast?_append_of_ne_nil _ hne,
      ih t (fun w hw => hts w (by simp [hw])) ht]

lemma pyStrip_append_space {x : Str} (hx : x ≠ [])
    (hh : ∀ c, x.head? = some c → pyIsSpace c = false)
    (hl : ∀ c, x.getLast? = some c → pyIsSpace c = false) :
    pyStrip (x ++ [' ']) = x := by
  obtain ⟨c, x', rfl⟩ := List.exists_cons_of_ne_nil hx
  have hc : pyIsSpace c = false := hh c rfl
  unfold pyStrip
  rw [List.cons_append, List.dropWhile_cons_of_neg (by simp [hc])]
  have hrev : (c :: (x' ++ [' '])).reverse = ' ' :: (c :: x').reverse := by
    simp
  rw [hrev, List.dropWhile_cons_of_pos (by decide)]
  have hrevne : (c :: x').reverse ≠ [] := by simp
  obtain ⟨d, r, hdr⟩ := List.exists_cons_of_ne_nil hrevne
  have hxd : c :: x' = r.reverse ++ [d] := by
    have h2 := congrArg List.reverse hdr
    simpa using h2
  have hd : pyIsSpace d = false := hl d (by rw [hxd]; simp)
  rw [hdr, List.dropWhile_cons_of_neg (by simp [hd]), ← hdr, List.reverse_reverse]

lemma pyStrip_join_toks (l : List Str) (hne : l ≠ []) (hg : ∀ t ∈ l, goodTok t) :
    pyStrip (l.map (· ++ [' '])).flatten = pyJoin [' '] l := by
  rw [flatten_map_space l hne]
  obtain ⟨t, ts, rfl⟩ := List.exists_cons_of_ne_nil hne
  refine pyStrip_append_space
    (pyJoin_ne_nil _ (by simp) fun w hw => (hg w hw).1) ?_ ?_
  · intro c hc
    rw [pyJoin_head? t ts (hg t (by simp)).1] at hc
    exact (hg t (by simp)).2.1 c hc
  · intro c hc
    rcases List.eq_nil_or_concat' (t :: ts) with h | ⟨L, b, hL⟩
    · simp at h
    · rw [hL, pyJoin_getLast? L b
        (fun w hw => (hg w (by rw [hL]; exact List.mem_append_left _ hw)).1)
        (hg b (by rw [hL]; simp)).1] at hc
      exact (hg b (by rw [hL]; simp)).2.2 c hc

lemma activeOpen_cons (hl : Str) :
    activeOpen hl = '{' :: ('\\' :: 'c' :: (hl ++ "\\fscx120\\fscy120\x7d".data)) := rfl

lemma goodTok_base (hl : Str) (i : ℕ) (jw : ℕ × Str) (hw : jw.2 ≠ [])
    (hsp : ∀ c ∈ jw.2, pyIsSpace c = false) :
    goodTok (if jw.1 = i then activeOpen hl ++ sanitize_ass_text jw.2 ++ activeClose
             else sanitize_ass_text jw.2) := by
  obtain ⟨c0, w', hw0⟩ := List.exists_cons_of_ne_nil hw
  split_ifs with hji
  · refine ⟨by simp [activeOpen_cons], ?_, ?_⟩
    · intro c hc
      rw [activeOpen_cons] at hc
      simp only [List.cons_append, List.head?_cons, Option.some_inj] at hc
      subst hc
      decide
    · intro c hc
      rw [List.getLast?_append_of_ne_nil _ (by decide : activeClose ≠ [])] at hc
      have : activeClose.getLast? = some '}' := by decide
      rw [this, Option.some_inj] at hc
      subst hc
      decide
  · rw [sanitize_eq_map, hw0]
    constructor
    · simp
    constructor
    · intro c hc
      simp only [List.map_cons, List.head?_cons, Option.some_inj] at hc
      subst hc
      rw [glyphSub_space]
      exact hsp c0 (by rw [hw0]; simp)
    · intro c hc
      rcases List.eq_nil_or_concat' (c0 :: w') with h | ⟨L, b, hL⟩
      · simp at h
      · rw [hL, List.map_append, List.map_singleton, List.getLast?_concat,
          Option.some_inj] at hc
        subst hc
        rw [glyphSub_space]
        exact hsp b (by rw [hw0, hL]; simp)

lemma formattedText_eq_spec (hl : Str) (batch : List Str) (i : ℕ)
    (hb : ∀ w ∈ batch, w ≠ [] ∧ ∀ c ∈ w, pyIsSpace c = false) :
    formattedText hl batch i = renderBatchSpec hl batch i := by
  unfold formattedText renderBatchSpec
  have hmap : batch.enum.map (renderWordTok hl i)
      = (batch.enum.map fun jw =>
          if jw.1 = i then activeOpen hl ++ sanitize_ass_text jw.2 ++ activeClose
          else sanitize_ass_text jw.2).map (· ++ [' ']) := by
    rw [List.map_map]
    exact List.map_congr_left fun jw _ => renderWordTok_eq hl i jw
  rw [hmap]
  by_cases hbn : batch = []
  · subst hbn; rfl
  · refine pyStrip_join_toks _ (by simp [hbn]) ?_
    intro t ht
    rw [List.mem_map] at ht
    obtain ⟨jw, hjw, rfl⟩ := ht
    have hmem : jw.2 ∈ batch := by
      rw [List.mem_enum_iff_getElem?] at hjw
      exact List.getElem?_mem hjw
    obtain ⟨hne, hsp⟩ := hb jw.2 hmem
    exact goodTok_base hl i jw hne hsp

/-! ### `processor.generate_srt_from_segments` -/

structure SrtEntry where
  idx : ℕ
  start : ℚ
  stop : ℚ
  text : Str

/-- `word_groups`: `" ".join(words[i:i + words_per_line])` for
`i in range(0, len(words), words_per_line)`. -/
def wordGroups (wpl : ℕ) (ws : List Str) : List Str :=
  (chunkOff wpl ws).map fun ob => pyJoin [' '] ob.2

/-- The body of the `for i, group in enumerate(word_groups)` loop:
`group_start`, `group_end = min(group_end, seg_end)`, and the running
`entry_index`. -/
def srtEntryOf (idx0 : ℕ) (sg : Seg) (tpg : ℚ) (ig : ℕ × Str) : SrtEntry :=
  ⟨idx0 + ig.1, sg.start + (ig.1 : ℚ) * tpg,
    min (sg.start + ((ig.1 : ℚ) + 1) * tpg) sg.stop, ig.2⟩

/-- The entries one segment contributes, together with the next value of
`entry_index` (`processor.py` lines 174-211). -/
def srtEntriesForSeg (wpl : ℕ) (idx0 : ℕ) (sg : Seg) : List SrtEntry × ℕ :=
  let text := pyStrip sg.text
  if text = [] then ([], idx0)
  else
    let words := pySplit text
    if words.length = 0 then ([], idx0)
    else
      let groups := wordGroups wpl words
      if groups.length = 0 then ([], idx0)
      else
        let tpg : ℚ := (sg.stop - sg.start) / (groups.length : ℚ)
        (groups.enum.map (srtEntryOf idx0 sg tpg), idx0 + groups.length)

def srtEntriesGo (wpl : ℕ) : List Seg → ℕ → List SrtEntry
  | [], _ => []
  | sg :: rest, idx0 =>
    let p := srtEntriesForSeg wpl idx0 sg
    p.1 ++ srtEntriesGo wpl rest p.2

/-- `generate_srt_from_segments`, as the list of entries it writes;
`entry_index` starts at 1. -/
def generate_srt_from_segments (segs : List Seg) (wpl : ℕ) : List SrtEntry :=
  srtEntriesGo wpl segs 1

/-- The on-disk block for one entry:
`f"{entry_index}\n{start_str} --> {end_str}\n{group}\n\n"`. -/
def renderSrtEntry (e : SrtEntry) : Str :=
  natToStr e.idx ++ "\n".data ++ renderSrtTotal (pyRound (e.start * 1000))
    ++ " --> ".data ++ renderSrtTotal (pyRound (e.stop * 1000))
    ++ "\n".data ++ e.text ++ "\n\n".data

lemma chunkOff_ne_nil {wpb : ℕ} {ws : List Str} (h : ws ≠ []) :
    chunkOff wpb ws ≠ [] := by
  obtain ⟨w, ws', rfl⟩ := List.exists_cons_of_ne_nil h
  unfold chunkOff
  rw [List.length_cons, chunkOffGo]
  simp

lemma srt_seg_words_nil {wpl idx0 : ℕ} {sg : Seg} (h : pySplit sg.text = []) :
    srtEntriesForSeg wpl idx0 sg = ([], idx0) := by
  unfold srtEntriesForSeg
  rw [if_pos (pyStrip_nil_of_pySplit_nil h)]

lemma srt_seg_flatten {wpl : ℕ} (hwpl : 0 < wpl) (idx0 : ℕ) (sg : Seg) :
    ((srtEntriesForSeg wpl idx0 sg).1.map fun e => pySplit e.text).flatten
      = pySplit sg.text := by
  unfold srtEntriesForSeg
  by_cases h1 : pyStrip sg.text = []
  · rw [if_pos h1]
    have : pySplit sg.text = pySplit (pyStrip sg.text) := (pySplit_strip sg.text).symm
    rw [this, h1]
    rfl
  rw [if_neg h1]
  by_cases h2 : (pySplit (pyStrip sg.text)).length = 0
  · rw [if_pos h2]
    rw [← pySplit_strip sg.text]
    rw [List.length_eq_zero.1 h2]
    rfl
  rw [if_neg h2]
  have hwords : pySplit (pyStrip sg.text) ≠ [] := by
    intro hc
    exact h2 (by rw [hc]; rfl)
  have h3 : (wordGroups wpl (pySplit (pyStrip sg.text))).length ≠ 0 := by
    unfold wordGroups
    rw [List.length_map]
    intro hc
    exact chunkOff_ne_nil hwords (List.length_eq_zero.1 hc)
  rw [if_neg h3]
  simp only [List.map_map]
  have hcomp : ∀ tpg : ℚ,
      ((wordGroups wpl (pySplit (pyStrip sg.text))).enum.map
        ((fun e : SrtEntry => pySplit e.text) ∘ srtEntryOf idx0 sg tpg))
      = (wordGroups wpl (pySplit (pyStrip sg.text))).map pySplit := by
    intro tpg
    have h5 : ((fun e : SrtEntry => pySplit e.text) ∘ srtEntryOf idx0 sg tpg)
        = (pySplit ∘ Prod.snd) := rfl
    rw [h5, ← List.map_map, List.enum_map_snd]
  rw [hcomp]
  unfold wordGroups
  rw [List.map_map]
  have hjoin : ((chunkOff wpl (pySplit (pyStrip sg.text))).map
        (pySplit ∘ fun ob => pyJoin [' '] ob.2))
      = (chunkOff wpl (pySplit (pyStrip sg.text))).map (·.2) := by
    refine List.map_congr_left fun ob hob => ?_
    refine pySplit_join ob.2 fun w hw => ?_
    exact pySplit_words (pyStrip sg.text) w
      (chunkOffGo_mem_subset _ _ _ ob hob w hw)
  rw [hjoin]
  unfold chunkOff
  rw [chunkOffGo_flatten hwpl _ _ _ (le_refl _), pySplit_strip]

lemma srt_seg_next {wpl : ℕ} (idx0 : ℕ) (sg : Seg) :
    (srtEntriesForSeg wpl idx0 sg).2
      = idx0 + (srtEntriesForSeg wpl idx0 sg).1.length := by
  unfold srtEntriesForSeg
  by_cases h1 : pyStrip sg.text = []
  · rw [if_pos h1]; rfl
  rw [if_neg h1]
  by_cases h2 : (pySplit (pyStrip sg.text)).length = 0
  · rw [if_pos h2]; rfl
  rw [if_neg h2]
  by_cases h3 : (wordGroups wpl (pySplit (pyStrip sg.text))).length = 0
  · rw [if_pos h3]; rfl
  rw [if_neg h3]
  simp

lemma srt_seg_idx {wpl : ℕ} (idx0 : ℕ) (sg : Seg) :
    (srtEntriesForSeg wpl idx0 sg).1.map (·.idx)
      = List.range' idx0 (srtEntriesForSeg wpl idx0 sg).1.length := by
  unfold srtEntriesForSeg
  by_cases h1 : pyStrip sg.text = []
  · rw [if_pos h1]; rfl
  rw [if_neg h1]
  by_cases h2 : (pySplit (pyStrip sg.text)).length = 0
  · rw [if_pos h2]; rfl
  rw [if_neg h2]
  by_cases h3 : (wordGroups wpl (pySplit (pyStrip sg.text))).length = 0
  · rw [if_pos h3]; rfl
  rw [if_neg h3]
  simp only [List.map_map, List.length_map]
  have h4 : ∀ tpg : ℚ,
      ((wordGroups wpl (pySplit (pyStrip sg.text))).enum.map
        ((fun e : SrtEntry => e.idx) ∘ srtEntryOf idx0 sg tpg))
      = ((wordGroups wpl (pySplit (pyStrip sg.text))).enum.map Prod.fst).map
          (idx0 + ·) := by
    intro tpg
    rw [List.map_map]
    rfl
  rw [h4, List.enum, List.enumFrom_map_fst]
  have h6 := List.map_add_range' idx0 0 (wordGroups wpl (pySplit (pyStrip sg.text))).length 1
  simp only [Nat.add_zero] at h6
  rw [h6, List.enumFrom_length]

lemma srtGo_idx (wpl : ℕ) :
    ∀ (segs : List Seg) (idx0 : ℕ),
      (srtEntriesGo wpl segs idx0).map (·.idx)
        = List.range' idx0 (srtEntriesGo wpl segs idx0).length := by
  intro segs
  induction segs with
  | nil => intro idx0; rfl
  | cons sg rest ih =>
    intro idx0
    have hgo : srtEntriesGo wpl (sg :: rest) idx0
        = (srtEntriesForSeg wpl idx0 sg).1
          ++ srtEntriesGo wpl rest (srtEntriesForSeg wpl idx0 sg).2 := rfl
    rw [hgo, List.map_append, srt_seg_idx idx0 sg, ih, srt_seg_next idx0 sg,
      List.length_append]
    have h7 := List.range'_append idx0 (srtEntriesForSeg wpl idx0 sg).1.length
      (srtEntriesGo wpl rest (idx0 + (srtEntriesForSeg wpl idx0 sg).1.length)).length 1
    simp only [Nat.one_mul, Nat.mul_one] at h7
    rw [h7, Nat.add_comm]

/-- C7: for every segment list and positive words-per-line setting, the
plain (SRT) caption builder's entries, with the `" "` batch separators
removed (i.e. re-split on whitespace) and concatenated in order,
reconstruct the segment's whitespace-split word sequence exactly;
segments that split into zero words produce no entry and do not advance
the 1-based entry index, and the emitted indices are exactly the
consecutive 1-based range. -/
theorem claim_C7_plain_builder_reconstruction
    (segs : List Seg) (wpl : ℕ) (sg : Seg) (idx0 : ℕ) (hwpl : 0 < wpl) :
    (((srtEntriesForSeg wpl idx0 sg).1.map fun e => pySplit e.text).flatten
        = pySplit sg.text)
    ∧ (pySplit sg.text = [] → srtEntriesForSeg wpl idx0 sg = ([], idx0))
    ∧ ((srtEntriesForSeg wpl idx0 sg).2
        = idx0 + (srtEntriesForSeg wpl idx0 sg).1.length)
    ∧ ((srtEntriesForSeg wpl idx0 sg).1.map (·.idx)
        = List.range' idx0 (srtEntriesForSeg wpl idx0 sg).1.length)
    ∧ ((generate_srt_from_segments segs wpl).map (·.idx)
        = List.range' 1 (generate_srt_from_segments segs wpl).length) :=
  ⟨srt_seg_flatten hwpl idx0 sg, fun h => srt_seg_words_nil h,
    srt_seg_next idx0 sg, srt_seg_idx idx0 sg, srtGo_idx wpl segs 1⟩

lemma eventsForBatch_length (hl : Str) (b : List Str) (t0 d : ℚ) :
    (eventsForBatch hl b t0 d).length = b.length := by
  simp [eventsForBatch]

lemma eventsForBatch_get (hl : Str) (b : List Str) (t0 d : ℚ) (i : ℕ)
    (hi : i < (eventsForBatch hl b t0 d).length) :
    (eventsForBatch hl b t0 d).get ⟨i, hi⟩
      = ⟨t0 + (i : ℚ) * d, t0 + ((i : ℚ) + 1) * d, formattedText hl b i⟩ := by
  simp [eventsForBatch]

lemma count_pyJoin_space (c : Char) (hc : ¬c = ' ') :
    ∀ l : List Str, List.count c (pyJoin [' '] l) = (l.map (List.count c)).sum := by
  intro l
  induction l with
  | nil => rfl
  | cons w rest ih =>
    cases rest with
    | nil => simp [pyJoin]
    | cons w2 rest2 =>
      have harm : pyJoin [' '] (w :: w2 :: rest2)
          = (w ++ [' ']) ++ pyJoin [' '] (w2 :: rest2) := rfl
      rw [harm, List.count_append, List.count_append, ih]
      have hc' : ¬(' ' = c) := fun h => hc h.symm
      have hsp : List.count c [' '] = 0 := by
        simp [List.count_cons, hc']
      rw [hsp]
      simp only [List.map_cons, List.sum_cons]
      omega

lemma count_base_sum (hl : Str) (i : ℕ) (c : Char)
    (hz : ∀ w : Str, (sanitize_ass_text w).count c = 0) :
    ∀ (batch : List Str) (s : ℕ),
      ((List.enumFrom s batch).map fun jw =>
        List.count c (if jw.1 = i then
            activeOpen hl ++ sanitize_ass_text jw.2 ++ activeClose
          else sanitize_ass_text jw.2)).sum
      = if s ≤ i ∧ i < s + batch.length then
          (activeOpen hl).count c + activeClose.count c
        else 0 := by
  intro batch
  induction batch with
  | nil =>
    intro s
    rw [if_neg (by simp)]
    rfl
  | cons w rest ih =>
    intro s
    rw [List.enumFrom_cons, List.map_cons, List.sum_cons, ih (s + 1)]
    by_cases hsi : s = i
    · subst hsi
      rw [if_pos rfl, List.count_append, List.count_append, hz w,
        if_neg (by omega), if_pos (by simp only [List.length_cons]; omega)]
      omega
    · rw [if_neg hsi, hz w]
      have hiff : (s + 1 ≤ i ∧ i < s + 1 + rest.length)
          ↔ (s ≤ i ∧ i < s + (w :: rest).length) := by
        simp only [List.length_cons]
        omega
      rw [if_congr hiff rfl rfl]
      omega

lemma count_renderBatchSpec (hl : Str) (batch : List Str) (i : ℕ) (c : Char)
    (hc : ¬c = ' ') (hz : ∀ w : Str, (sanitize_ass_text w).count c = 0)
    (hi : i < batch.length) :
    List.count c (renderBatchSpec hl batch i)
      = (activeOpen hl).count c + activeClose.count c := by
  unfold renderBatchSpec
  rw [count_pyJoin_space c hc, List.map_map]
  have hsum := count_base_sum hl i c hz batch 0
  rw [if_pos ⟨Nat.zero_le i, by omega⟩] at hsum
  rw [← hsum]
  rfl

lemma activeOpen_count (hl : Str) (c : Char) :
    (activeOpen hl).count c
      = List.count c "\x7b\\c".data + hl.count c
        + List.count c "\\fscx120\\fscy120\x7d".data := by
  unfold activeOpen
  rw [List.count_append, List.count_append]

lemma eventsForSeg_eq (hl : Str) (wpb : ℕ) (sg : Seg) :
    eventsForSeg hl wpb sg
      = if pySplit (pyStrip sg.text) = [] then []
        else
          (chunkOff wpb (pySplit (pyStrip sg.text))).flatMap fun ob =>
            eventsForBatch hl ob.2
              (sg.start + (ob.1 : ℚ) * ((sg.stop - sg.start)
                / ((max (pySplit (pyStrip sg.text)).length 1 : ℕ) : ℚ)))
              ((sg.start + ((ob.1 + ob.2.length : ℕ) : ℚ) * ((sg.stop - sg.start)
                  / ((max (pySplit (pyStrip sg.text)).length 1 : ℕ) : ℚ))
                - (sg.start + (ob.1 : ℚ) * ((sg.stop - sg.start)
                  / ((max (pySplit (pyStrip sg.text)).length 1 : ℕ) : ℚ))))
                / (ob.2.length : ℚ)) := rfl

lemma mem_events_structure {st : CaptionSettings} {segs : List Seg} {ev : AssEvent}
    (h : ev ∈ generate_animated_ass_events segs st) :
    ∃ sg ∈ segs, ∃ ob ∈ chunkOff st.words_per_line (pySplit (pyStrip sg.text)),
      ∃ i, i < ob.2.length ∧ ev.text = formattedText st.highlight_color ob.2 i := by
  unfold generate_animated_ass_events at h
  rw [List.mem_flatMap] at h
  obtain ⟨sg, hsg, hev⟩ := h
  rw [eventsForSeg_eq] at hev
  split at hev
  · simp at hev
  · rw [List.mem_flatMap] at hev
    obtain ⟨ob, hob, hev⟩ := hev
    unfold eventsForBatch at hev
    rw [List.mem_map] at hev
    obtain ⟨i, hi, rfl⟩ := hev
    exact ⟨sg, hsg, ob, hob, i, List.mem_range.1 hi, rfl⟩

/-- C1: `sanitize_ass_text` is the per-character replacement of `{`,
`}`, `\` by their full-width look-alikes, so a sanitized word contains
no raw markup character; every emitted event's caption-text region
contains exactly the two braces of the builder's own highlight tag pair
(and its six backslashes) and nothing raw from the input words; the
frame text is the sanitized input words in their original order with
only the builder's markup (left unsanitized) wrapped around the active
word. -/
theorem claim_C1_sanitization_invariant (st : CaptionSettings) (segs : List Seg)
    (h1 : st.highlight_color.count '{' = 0) (h2 : st.highlight_color.count '}' = 0)
    (h3 : st.highlight_color.count '\\' = 0) :
    (∀ t : Str, sanitize_ass_text t = t.map glyphSub)
    ∧ (∀ t : Str, (sanitize_ass_text t).count '{' = 0
        ∧ (sanitize_ass_text t).count '}' = 0
        ∧ (sanitize_ass_text t).count '\\' = 0)
    ∧ (∀ ev ∈ generate_animated_ass_events segs st,
        ev.text.count '{' = 2 ∧ ev.text.count '}' = 2 ∧ ev.text.count '\\' = 6)
    ∧ (∀ sg ob i, sg ∈ segs →
        ob ∈ chunkOff st.words_per_line (pySplit (pyStrip sg.text)) →
        i < ob.2.length →
        formattedText st.highlight_color ob.2 i
          = renderBatchSpec st.highlight_color ob.2 i) := by
  refine ⟨sanitize_eq_map, sanitize_count_special, ?_, ?_⟩
  · intro ev hev
    obtain ⟨sg, hsg, ob, hob, i, hi, htext⟩ := mem_events_structure hev
    have hgood : ∀ w ∈ ob.2, w ≠ [] ∧ ∀ ch ∈ w, pyIsSpace ch = false :=
      fun w hw => pySplit_words (pyStrip sg.text) w
        (chunkOffGo_mem_subset _ _ _ ob hob w hw)
    have htext2 : ev.text = renderBatchSpec st.highlight_color ob.2 i := by
      rw [htext, formattedText_eq_spec _ _ _ hgood]
    refine ⟨?_, ?_, ?_⟩
    · rw [show ev.text.count '{' = List.count '{' ev.text from rfl, htext2,
        count_renderBatchSpec _ _ _ '{' (by decide)
          (fun w => (sanitize_count_special w).1) hi,
        activeOpen_count, h1]
      decide
    · rw [show ev.text.count '}' = List.count '}' ev.text from rfl, htext2,
        count_renderBatchSpec _ _ _ '}' (by decide)
          (fun w => (sanitize_count_special w).2.1) hi,
        activeOpen_count, h2]
      decide
    · rw [show ev.text.count '\\' = List.count '\\' ev.text from rfl, htext2,
        count_renderBatchSpec _ _ _ '\\' (by decide)
          (fun w => (sanitize_count_special w).2.2) hi,
        activeOpen_count, h3]
      decide
  · intro sg ob i _ hob _
    exact formattedText_eq_spec _ _ _ fun w hw =>
      pySplit_words (pyStrip sg.text) w
        (chunkOffGo_mem_subset _ _ _ ob hob w hw)

/-- C1 witness: the theorem applied to the repository's configured
highlight colour and a segment carrying the tag-injection payload
`"Hello {\an8}World"` used by the repository's own security test. -/
theorem claim_C1_witness :
    (("&H00FFFF".data : Str).count '{' = 0
      ∧ ("&H00FFFF".data : Str).count '}' = 0
      ∧ ("&H00FFFF".data : Str).count '\\' = 0)
    ∧ ((∀ t : Str, sanitize_ass_text t = t.map glyphSub)
      ∧ (∀ t : Str, (sanitize_ass_text t).count '{' = 0
          ∧ (sanitize_ass_text t).count '}' = 0
          ∧ (sanitize_ass_text t).count '\\' = 0)
      ∧ (∀ ev ∈ generate_animated_ass_events
            [⟨0, 1, "Hello \x7b\\an8\x7dWorld".data⟩] ⟨"&H00FFFF".data, 2⟩,
          ev.text.count '{' = 2 ∧ ev.text.count '}' = 2 ∧ ev.text.count '\\' = 6)
      ∧ (∀ sg ob i, sg ∈ [(⟨0, 1, "Hello \x7b\\an8\x7dWorld".data⟩ : Seg)] →
          ob ∈ chunkOff (CaptionSettings.words_per_line ⟨"&H00FFFF".data, 2⟩)
            (pySplit (pyStrip sg.text)) →
          i < ob.2.length →
          formattedText (CaptionSettings.highlight_color ⟨"&H00FFFF".data, 2⟩) ob.2 i
            = renderBatchSpec (CaptionSettings.highlight_color ⟨"&H00FFFF".data, 2⟩)
                ob.2 i)) :=
  ⟨⟨by decide, by decide, by decide⟩,
    claim_C1_sanitization_invariant ⟨"&H00FFFF".data, 2⟩
      [⟨0, 1, "Hello \x7b\\an8\x7dWorld".data⟩] (by decide) (by decide) (by decide)⟩

/-- C8: for every segment and positive batch size, the animated builder
processes each batch of `k = min(wpb, words remaining)` words into
exactly `k` consecutive events; event `i` runs over
`[bst + i·(bet-bst)/k, bst + (i+1)·(bet-bst)/k)`, so the windows are
pairwise adjacent (each end equals the next start), all have the same
length `(bet-bst)/k`, and the last end equals the batch window's end;
event `i`'s text renders all `k` sanitized batch words in order with
only the `i`-th wrapped in highlight markup. -/
theorem claim_C8_animated_batch_events (hl : Str) (wpb : ℕ) (sg : Seg)
    (ob : ℕ × List Str) (tpw bst bet : ℚ) (hwpb : 0 < wpb)
    (hob : ob ∈ chunkOff wpb (pySplit (pyStrip sg.text)))
    (htpw : tpw = (sg.stop - sg.start)
        / ((max (pySplit (pyStrip sg.text)).length 1 : ℕ) : ℚ))
    (hbst : bst = sg.start + (ob.1 : ℚ) * tpw)
    (hbet : bet = sg.start + ((ob.1 + ob.2.length : ℕ) : ℚ) * tpw) :
    (eventsForSeg hl wpb sg
      = (chunkOff wpb (pySplit (pyStrip sg.text))).flatMap fun b =>
          eventsForBatch hl b.2 (sg.start + (b.1 : ℚ) * tpw)
            ((sg.start + ((b.1 + b.2.length : ℕ) : ℚ) * tpw
                - (sg.start + (b.1 : ℚ) * tpw)) / (b.2.length : ℚ)))
    ∧ ob.2.length = min wpb ((pySplit (pyStrip sg.text)).length - ob.1)
    ∧ 0 < ob.2.length
    ∧ (eventsForBatch hl ob.2 bst ((bet - bst) / (ob.2.length : ℚ))).length
        = ob.2.length
    ∧ (∀ i (hi : i < (eventsForBatch hl ob.2 bst
          ((bet - bst) / (ob.2.length : ℚ))).length),
        ((eventsForBatch hl ob.2 bst ((bet - bst) / (ob.2.length : ℚ))).get
            ⟨i, hi⟩).start
            = bst + (i : ℚ) * ((bet - bst) / (ob.2.length : ℚ))
        ∧ ((eventsForBatch hl ob.2 bst ((bet - bst) / (ob.2.length : ℚ))).get
            ⟨i, hi⟩).stop
            = bst + ((i : ℚ) + 1) * ((bet - bst) / (ob.2.length : ℚ))
        ∧ ((eventsForBatch hl ob.2 bst ((bet - bst) / (ob.2.length : ℚ))).get
              ⟨i, hi⟩).stop
            - ((eventsForBatch hl ob.2 bst ((bet - bst) / (ob.2.length : ℚ))).get
              ⟨i, hi⟩).start
            = (bet - bst) / (ob.2.length : ℚ)
        ∧ ((eventsForBatch hl ob.2 bst ((bet - bst) / (ob.2.length : ℚ))).get
            ⟨i, hi⟩).text = renderBatchSpec hl ob.2 i)
    ∧ (∀ i (hi : i < (eventsForBatch hl ob.2 bst
            ((bet - bst) / (ob.2.length : ℚ))).length)
          (hi1 : i + 1 < (eventsForBatch hl ob.2 bst
            ((bet - bst) / (ob.2.length : ℚ))).length),
        ((eventsForBatch hl ob.2 bst ((bet - bst) / (ob.2.length : ℚ))).get
            ⟨i + 1, hi1⟩).start
          = ((eventsForBatch hl ob.2 bst ((bet - bst) / (ob.2.length : ℚ))).get
            ⟨i, hi⟩).stop)
    ∧ bst + (ob.2.length : ℚ) * ((bet - bst) / (ob.2.length : ℚ)) = bet := by
  have hlen := chunkOffGo_batch_len hwpb (pySplit (pyStrip sg.text)).length
    (pySplit (pyStrip sg.text)) 0 (le_refl _) ob hob
  have hne : ob.2 ≠ [] := chunkOffGo_batch_ne_nil _ _ _ ob hob
  have hpos : 0 < ob.2.length := List.length_pos.2 hne
  refine ⟨?_, ?_, hpos, eventsForBatch_length hl ob.2 bst _, ?_, ?_, ?_⟩
  · unfold eventsForSeg
    subst htpw
    by_cases hw0 : pySplit (pyStrip sg.text) = []
    · rw [if_pos hw0, hw0]
      rfl
    · rw [if_neg hw0]
  · rw [(hlen.2 : ob.2.length = _)]
    omega
  · intro i hi
    rw [eventsForBatch_get hl ob.2 bst _ i hi]
    refine ⟨rfl, rfl, by ring, ?_⟩
    refine formattedText_eq_spec hl ob.2 i fun w hw => ?_
    exact pySplit_words (pyStrip sg.text) w
      (chunkOffGo_mem_subset _ _ _ ob hob w hw)
  · intro i hi hi1
    rw [eventsForBatch_get hl ob.2 bst _ i hi,
      eventsForBatch_get hl ob.2 bst _ (i + 1) hi1]
    push_cast
    ring
  · have hq : ((ob.2.length : ℚ)) ≠ 0 := by
      exact_mod_cast Nat.pos_iff_ne_zero.1 hpos
    field_simp

/-- C8 witness: the theorem applied to the first batch (offset 0, words
`["hello", "brave"]`) of a concrete three-word segment at `wpb = 2`,
with the batch window endpoints instantiated by their defining
expressions. -/
theorem claim_C8_witness :
    (0 < 2
    ∧ (0, ["hello".data, "brave".data])
        ∈ chunkOff 2 (pySplit (pyStrip "hello brave new".data)))
    ∧ (eventsForSeg "&H00FFFF".data 2 ⟨0, 1, "hello brave new".data⟩
      = (chunkOff 2 (pySplit (pyStrip "hello brave new".data))).flatMap fun b =>
          eventsForBatch "&H00FFFF".data b.2
            ((⟨0, 1, "hello brave new".data⟩ : Seg).start + (b.1 : ℚ)
              * (((⟨0, 1, "hello brave new".data⟩ : Seg).stop
                  - (⟨0, 1, "hello brave new".data⟩ : Seg).start)
                / ((max (pySplit (pyStrip "hello brave new".data)).length 1 : ℕ) : ℚ)))
            (((⟨0, 1, "hello brave new".data⟩ : Seg).start
                + ((b.1 + b.2.length : ℕ) : ℚ)
                  * (((⟨0, 1, "hello brave new".data⟩ : Seg).stop
                      - (⟨0, 1, "hello brave new".data⟩ : Seg).start)
                    / ((max (pySplit (pyStrip "hello brave new".data)).length 1 : ℕ) : ℚ))
                - ((⟨0, 1, "hello brave new".data⟩ : Seg).start + (b.1 : ℚ)
                  * (((⟨0, 1, "hello brave new".data⟩ : Seg).stop
                      - (⟨0, 1, "hello brave new".data⟩ : Seg).start)
                    / ((max (pySplit (pyStrip "hello brave new".data)).length 1 : ℕ) : ℚ))))
              / ((b.2.length : ℚ)))) := by
  have h := claim_C8_animated_batch_events "&H00FFFF".data 2
    ⟨0, 1, "hello brave new".data⟩ (0, ["hello".data, "brave".data])
    (((⟨0, 1, "hello brave new".data⟩ : Seg).stop
        - (⟨0, 1, "hello brave new".data⟩ : Seg).start)
      / ((max (pySplit (pyStrip "hello brave new".data)).length 1 : ℕ) : ℚ))
    ((⟨0, 1, "hello brave new".data⟩ : Seg).start + ((0, ["hello".data, "brave".data]).1 : ℚ)
      * (((⟨0, 1, "hello brave new".data⟩ : Seg).stop
          - (⟨0, 1, "hello brave new".data⟩ : Seg).start)
        / ((max (pySplit (pyStrip "hello brave new".data)).length 1 : ℕ) : ℚ)))
    ((⟨0, 1, "hello brave new".data⟩ : Seg).start
      + (((0, ["hello".data, "brave".data]).1
          + (0, ["hello".data, "brave".data]).2.length : ℕ) : ℚ)
      * (((⟨0, 1, "hello brave new".data⟩ : Seg).stop
          - (⟨0, 1, "hello brave new".data⟩ : Seg).start)
        / ((max (pySplit (pyStrip "hello brave new".data)).length 1 : ℕ) : ℚ)))
    (by decide) (by decide) rfl rfl rfl
  exact ⟨⟨by decide, by decide⟩, h.1⟩

/-! ## `processor._get_subtitle_filter_string` (claim C3) -/

/-- The escape chain applied to the caption path (`processor.py` line
68): `str(srt_path).replace("\\", "/").replace(":", "\\:")
.replace("'", r"'\''")`. -/
def escapeSubPath (p : Str) : Str :=
  pyReplace "'".data "'\\''".data
    (pyReplace ":".data "\\:".data
      (pyReplace "\\".data "/".data p))

/-- The per-character expansion the three replaces amount to. -/
def escChar (c : Char) : Str :=
  if c = '\\' then "/".data
  else if c = ':' then "\\:".data
  else if c = '\'' then "'\\''".data
  else [c]

/-- The SRT-styling fields of `CAPTION_SETTINGS` the filter builder
reads. -/
structure SubtitleStyle where
  font : Str
  font_size : ℕ
  outline_width : ℕ
  margin_bottom : ℕ
  shadow_depth : ℕ

def pyLower (s : Str) : Str := s.map Char.toLower

/-- `processor._get_subtitle_filter_string`. -/
def _get_subtitle_filter_string (cfg : SubtitleStyle) (srt_path : Str) : Str :=
  let srt_escaped := escapeSubPath srt_path
  let is_ass := ".ass".data.isSuffixOf (pyLower srt_path)
  if is_ass then
    "subtitles='".data ++ srt_escaped ++ "'".data
  else
    "subtitles='".data ++ srt_escaped
      ++ "':force_style='FontName=".data ++ cfg.font
      ++ ",FontSize=".data ++ natToStr cfg.font_size
      ++ ",PrimaryColour=&H00FFFFFF,OutlineColour=&H00000000,BackColour=&H80000000,Outline=".data
      ++ natToStr cfg.outline_width
      ++ ",Shadow=".data ++ natToStr cfg.shadow_depth
      ++ ",Alignment=2,MarginV=".data ++ natToStr cfg.margin_bottom ++ "'".data

/-- FFmpeg-style scanning of a filter-argument value: a single quote
toggles quote mode, a backslash outside quotes escapes the next
character (tracked by the `esc` flag), and a bare `:` outside quotes
terminates the value.  Returns `true` iff the input is consumed with no
early terminator and the scan ends outside quotes. -/
def ffQuoteScan : Str → Bool → Bool → Bool
  | [], inq, _ => !inq
  | c :: rest, inq, esc =>
    if esc then ffQuoteScan rest inq false
    else if c = '\'' then ffQuoteScan rest (!inq) false
    else if inq then ffQuoteScan rest inq false
    else if c = '\\' then ffQuoteScan rest inq true
    else if c = ':' then false
    else ffQuoteScan rest inq false

lemma pyReplace_expand (a : Char) (r : Str) (s : Str) :
    pyReplace [a] r s = s.flatMap fun c => if c = a then r else [c] := by
  induction s with
  | nil => simp [pyReplace]
  | cons c cs ih =>
    rw [pyReplace]
    by_cases hc : c = a
    · have hcond : ([a] : Str) ≠ [] ∧ [a].isPrefixOf (c :: cs) := by
        constructor
        · simp
        · simp [singleton_isPrefixOf, hc]
      rw [if_pos hcond]
      simp [hc, ih]
    · rw [if_neg]
      · simp [hc, ih]
      · rintro ⟨-, hp⟩
        rw [singleton_isPrefixOf] at hp
        have ha : a = c := by simpa using hp
        exact hc ha.symm

lemma escapeSubPath_eq_flatMap (p : Str) : escapeSubPath p = p.flatMap escChar := by
  unfold escapeSubPath
  simp only [String.data]
  rw [pyReplace_char, pyReplace_expand, pyReplace_expand]
  induction p with
  | nil => rfl
  | cons c cs ih =>
    rw [List.map_cons, List.flatMap_cons, List.flatMap_append, ih, List.flatMap_cons]
    congr 1
    by_cases h1 : c = '\\'
    · subst h1; decide
    by_cases h2 : c = ':'
    · subst h2; decide
    by_cases h3 : c = '\''
    · subst h3; decide
    simp [escChar, h1, h2, h3]

lemma ffQuoteScan_cons (c : Char) (rest : Str) (inq esc : Bool) :
    ffQuoteScan (c :: rest) inq esc
      = if esc then ffQuoteScan rest inq false
        else if c = '\'' then ffQuoteScan rest (!inq) false
        else if inq then ffQuoteScan rest inq false
        else if c = '\\' then ffQuoteScan rest inq true
        else if c = ':' then false
        else ffQuoteScan rest inq false := rfl

lemma ffQuoteScan_esc :
    ∀ l : Str, ffQuoteScan (l.flatMap escChar ++ "'".data) true false = true := by
  intro l
  induction l with
  | nil => decide
  | cons c cs ih =>
    rw [List.flatMap_cons, List.append_assoc]
    by_cases h1 : c = '\\'
    · subst h1
      show ffQuoteScan ('/' :: (cs.flatMap escChar ++ "'".data)) true false = true
      exact ih
    by_cases h2 : c = ':'
    · subst h2
      show ffQuoteScan ('\\' :: ':' :: (cs.flatMap escChar ++ "'".data)) true false = true
      exact ih
    by_cases h3 : c = '\''
    · subst h3
      show ffQuoteScan ('\'' :: '\\' :: '\'' :: '\'' :: (cs.flatMap escChar ++ "'".data))
          true false = true
      exact ih
    have hesc : escChar c = [c] := by simp [escChar, h1, h2, h3]
    rw [hesc, List.singleton_append, ffQuoteScan_cons,
      if_neg (by simp), if_neg h3, if_pos rfl]
    exact ih

lemma isInfix_append_right (y : Str) {l x : Str} (h : l <:+: x) : l <:+: x ++ y := by
  obtain ⟨s, t, rfl⟩ := h
  exact ⟨s, t ++ y, by simp⟩

/-- C3: the subtitle-filter path escape normalizes every backslash to a
forward slash, escapes every colon as `\:`, and replaces every single
quote with the four-character sequence `'\''` (stated as the
per-character expansion `escChar`); for a path containing a quote, the
compiled filter string contains that four-character sequence; and the
single-quoted filter literal built from the escaped path scans cleanly
under FFmpeg quoting rules — no unescaped quote terminates it early. -/
theorem claim_C3_filter_path_escaping (cfg : SubtitleStyle) (p : Str)
    (hq : '\'' ∈ p) :
    (escapeSubPath p = p.flatMap escChar)
    ∧ ("'\\''".data <:+: _get_subtitle_filter_string cfg p)
    ∧ ffQuoteScan ('\'' :: (escapeSubPath p ++ "'".data)) false false = true := by
  refine ⟨escapeSubPath_eq_flatMap p, ?_, ?_⟩
  · have hmid : "'\\''".data <:+: escapeSubPath p := by
      obtain ⟨s, t, rfl⟩ := List.append_of_mem hq
      rw [escapeSubPath_eq_flatMap, List.flatMap_append, List.flatMap_cons]
      have hq4 : escChar '\'' = "'\\''".data := by decide
      rw [hq4]
      exact ⟨s.flatMap escChar, t.flatMap escChar, by simp⟩
    have hpre : ∀ pre : Str, "'\\''".data <:+: pre ++ escapeSubPath p := by
      intro pre
      obtain ⟨a, b, hab⟩ := hmid
      exact ⟨pre ++ a, b, by rw [← hab]; simp⟩
    show "'\\''".data <:+:
      (if ".ass".data.isSuffixOf (pyLower p) = true then
        "subtitles='".data ++ escapeSubPath p ++ "'".data
      else
        "subtitles='".data ++ escapeSubPath p
          ++ "':force_style='FontName=".data ++ cfg.font
          ++ ",FontSize=".data ++ natToStr cfg.font_size
          ++ ",PrimaryColour=&H00FFFFFF,OutlineColour=&H00000000,BackColour=&H80000000,Outline=".data
          ++ natToStr cfg.outline_width
          ++ ",Shadow=".data ++ natToStr cfg.shadow_depth
          ++ ",Alignment=2,MarginV=".data ++ natToStr cfg.margin_bottom ++ "'".data)
    split
    · exact isInfix_append_right _ (hpre _)
    · apply isInfix_append_right
      apply isInfix_append_right
      apply isInfix_append_right
      apply isInfix_append_right
      apply isInfix_append_right
      apply isInfix_append_right
      apply isInfix_append_right
      apply isInfix_append_right
      apply isInfix_append_right
      apply isInfix_append_right
      apply isInfix_append_right
      exact hpre _
  · show ffQuoteScan (escapeSubPath p ++ "'".data) true false = true
    rw [escapeSubPath_eq_flatMap]
    exact ffQuoteScan_esc p

/-- C3 witness: the theorem applied to the repository's configured
caption style and a Windows-style path containing a quote, a colon, and
backslashes. -/
theorem claim_C3_witness :
    ('\'' ∈ "C:\\clips\\it's here.ass".data)
    ∧ ((escapeSubPath "C:\\clips\\it's here.ass".data
          = "C:\\clips\\it's here.ass".data.flatMap escChar)
      ∧ ("'\\''".data <:+: _get_subtitle_filter_string
            ⟨"Segoe UI Semibold".data, 72, 3, 120, 2⟩ "C:\\clips\\it's here.ass".data)
      ∧ ffQuoteScan
          ('\'' :: (escapeSubPath "C:\\clips\\it's here.ass".data ++ "'".data))
          false false = true) :=
  ⟨by decide,
    claim_C3_filter_path_escaping ⟨"Segoe UI Semibold".data, 72, 3, 120, 2⟩
      "C:\\clips\\it's here.ass".data (by decide)⟩

/-! ## `FaceTracker.get_average_face_position` and
`processor._get_smart_crop_x` (claim C6) -/

/-- A detection's relative bounding box (the fields the tracker reads). -/
structure BBox where
  xmin : ℚ
  width : ℚ

/-- One decoded frame, as the detection list MediaPipe returns for it
(sorted by score descending; the code takes `detections[0]`). -/
abbrev FrameDetections := List BBox

/-- The horizontal centres collected by the sampling loop: every
`sample_interval`-th frame (`frame_count % sample_interval == 0`)
contributes its first detection's `bbox.xmin + bbox.width / 2`, if any.
Frames whose per-frame processing raises are skipped by the inner
`except` and are modelled as frames with no detections. -/
def sampledCenters (sample_interval : ℕ) (frames : List FrameDetections) : List ℚ :=
  frames.enum.filterMap fun ifr =>
    if ifr.1 % sample_interval = 0 then
      ifr.2.head?.map fun b => b.xmin + b.width / 2
    else none

/-- `FaceTracker.get_average_face_position`: `opened` is whether
`cv2.VideoCapture` opened the file.  Returns `None` on open failure or
when no centre was collected, else the mean clamped to `[0, 1]`
(`max(0.0, min(1.0, avg_x))`). -/
def get_average_face_position (opened : Bool) (sample_interval : ℕ)
    (frames : List FrameDetections) : Option ℚ :=
  if ¬opened then none
  else
    let centers := sampledCenters sample_interval frames
    if centers = [] then none
    else some (max 0 (min 1 (centers.sum / (centers.length : ℚ))))

/-- Deterministic rendering of the mean into the crop expression
(stands in for Python's float `repr` in `f"(in_w*{avg_x})-(out_w/2)"`). -/
def showQ (q : ℚ) : Str := intToStr q.num ++ "/".data ++ natToStr q.den

/-- `processor._get_smart_crop_x`: the tracker call is modelled by its
outcome — `Except.error` when constructing/running the tracker raises
(caught by the `except` and degraded to centre crop), `Except.ok`
carrying the average position otherwise. -/
def _get_smart_crop_x (tracker_available : Bool)
    (tracker_result : Except Unit (Option ℚ)) : Str :=
  if tracker_available then
    match tracker_result with
    | .error _ => "(in_w-out_w)/2".data
    | .ok none => "(in_w-out_w)/2".data
    | .ok (some avg) => "(in_w*".data ++ showQ avg ++ ")-(out_w/2)".data
  else "(in_w-out_w)/2".data

/-- C6: the crop planner never raises — every outcome of the tracker
(open failure, internal error, no detection) degrades to the exact
centre-crop expression `(in_w-out_w)/2`; and when at least one sampled
frame has a detection, the planner returns
`(in_w*M)-(out_w/2)` where `M` is the arithmetic mean of the per-frame
first-detection horizontal centres clamped to `[0, 1]`. -/
theorem claim_C6_crop_planner_center_fallback (interval : ℕ)
    (frames : List FrameDetections) (e : Unit) (r : Except Unit (Option ℚ)) :
    (_get_smart_crop_x true (.error e) = "(in_w-out_w)/2".data)
    ∧ (_get_smart_crop_x true (.ok none) = "(in_w-out_w)/2".data)
    ∧ (_get_smart_crop_x false r = "(in_w-out_w)/2".data)
    ∧ (get_average_face_position false interval frames = none)
    ∧ (sampledCenters interval frames = [] →
        get_average_face_position true interval frames = none)
    ∧ (sampledCenters interval frames ≠ [] →
        get_average_face_position true interval frames
          = some (max 0 (min 1 ((sampledCenters interval frames).sum
              / ((sampledCenters interval frames).length : ℚ))))
        ∧ (0 : ℚ) ≤ max 0 (min 1 ((sampledCenters interval frames).sum
              / ((sampledCenters interval frames).length : ℚ)))
        ∧ max 0 (min 1 ((sampledCenters interval frames).sum
              / ((sampledCenters interval frames).length : ℚ))) ≤ 1
        ∧ _get_smart_crop_x true
            (.ok (get_average_face_position true interval frames))
            = "(in_w*".data
              ++ showQ (max 0 (min 1 ((sampledCenters interval frames).sum
                  / ((sampledCenters interval frames).length : ℚ))))
              ++ ")-(out_w/2)".data) := by
  refine ⟨rfl, rfl, by unfold _get_smart_crop_x; rfl, rfl, ?_, ?_⟩
  · intro h
    unfold get_average_face_position
    rw [if_neg (by simp), if_pos h]
  · intro h
    have havg : get_average_face_position true interval frames
        = some (max 0 (min 1 ((sampledCenters interval frames).sum
            / ((sampledCenters interval frames).length : ℚ)))) := by
      unfold get_average_face_position
      rw [if_neg (by simp), if_neg h]
    refine ⟨havg, le_max_left 0 _, max_le (by norm_num) (min_le_left 1 _), ?_⟩
    rw [havg]
    rfl

/-- C6 witness: the theorem applied to a concrete two-frame video whose
second frame carries one detection centred at `x = 1/2`, plus the
degraded outcomes at the same inputs. -/
theorem claim_C6_witness :
    (_get_smart_crop_x true (.error ()) = "(in_w-out_w)/2".data)
    ∧ (_get_smart_crop_x true (.ok none) = "(in_w-out_w)/2".data)
    ∧ (_get_smart_crop_x false (.ok (some (1 / 2))) = "(in_w-out_w)/2".data)
    ∧ (get_average_face_position false 1 [[], [⟨1 / 4, 1 / 2⟩]] = none)
    ∧ (sampledCenters 1 [[], [⟨1 / 4, 1 / 2⟩]] = [] →
        get_average_face_position true 1 [[], [⟨1 / 4, 1 / 2⟩]] = none)
    ∧ (sampledCenters 1 [[], [⟨1 / 4, 1 / 2⟩]] ≠ [] →
        get_average_face_position true 1 [[], [⟨1 / 4, 1 / 2⟩]]
          = some (max 0 (min 1 ((sampledCenters 1 [[], [⟨1 / 4, 1 / 2⟩]]).sum
              / ((sampledCenters 1 [[], [⟨1 / 4, 1 / 2⟩]]).length : ℚ))))
        ∧ (0 : ℚ) ≤ max 0 (min 1 ((sampledCenters 1 [[], [⟨1 / 4, 1 / 2⟩]]).sum
              / ((sampledCenters 1 [[], [⟨1 / 4, 1 / 2⟩]]).length : ℚ)))
        ∧ max 0 (min 1 ((sampledCenters 1 [[], [⟨1 / 4, 1 / 2⟩]]).sum
              / ((sampledCenters 1 [[], [⟨1 / 4, 1 / 2⟩]]).length : ℚ))) ≤ 1
        ∧ _get_smart_crop_x true
            (.ok (get_average_face_position true 1 [[], [⟨1 / 4, 1 / 2⟩]]))
            = "(in_w*".data
              ++ showQ (max 0 (min 1 ((sampledCenters 1 [[], [⟨1 / 4, 1 / 2⟩]]).sum
                  / ((sampledCenters 1 [[], [⟨1 / 4, 1 / 2⟩]]).length : ℚ))))
              ++ ")-(out_w/2)".data) :=
  claim_C6_crop_planner_center_fallback 1 [[], [⟨1 / 4, 1 / 2⟩]] ()
    (.ok (some (1 / 2)))

/-! ## `processor._get_audio_mix_filter` and the single-pass filter
graph (claim C9) -/

/-- `config.AUDIO_SETTINGS`. -/
structure AudioSettings where
  bgm_volume : ℚ
  original_audio_volume : ℚ

/-- `processor._get_audio_mix_filter(duration, bgm_volume)`; a `None`
`bgm_volume` falls back to `AUDIO_SETTINGS["bgm_volume"]`. -/
def _get_audio_mix_filter (au : AudioSettings) (duration : ℚ)
    (bgm_volume : Option ℚ) : Str :=
  let bv := bgm_volume.getD au.bgm_volume
  let ov := au.original_audio_volume
  "[1:a]volume=".data ++ showQ bv ++ ",aloop=loop=-1:size=".data
    ++ intToStr (pyInt (duration * 48000)) ++ "[bgm];[0:a]volume=".data
    ++ showQ ov ++ "[original];[original][bgm]amix=inputs=2:duration=first[aout]".data

/-- The `video_filters` chain of `_create_final_clip_optimized`
(lines 452-464): scale, crop, and — when a caption file exists — the
subtitle filter, joined by `","`. -/
def videoFilterChain (width height : ℕ) (crop_x : Str) (sub_filter : Option Str) : Str :=
  let video_filters := ["scale=-1:".data ++ natToStr height,
    "crop=".data ++ natToStr width ++ ":".data ++ natToStr height ++ ":".data
      ++ crop_x ++ ":0".data]
  let video_filters := match sub_filter with
    | some s => video_filters ++ [s]
    | none => video_filters
  pyJoin ",".data video_filters

/-- Lines 464-483 of `_create_final_clip_optimized`: the full
`-filter_complex` string and the audio `-map` argument.  `bgm` is
`some d` (with `d` the probed clip duration) when `select_bgm_by_mood`
returned a track, `none` otherwise. -/
def optimizedFilterAndMap (au : AudioSettings) (width height : ℕ) (crop_x : Str)
    (sub_filter : Option Str) (bgm : Option ℚ) : Str × Str :=
  let video_filter_complex :=
    "[0:v]".data ++ videoFilterChain width height crop_x sub_filter ++ "[vout]".data
  match bgm with
  | none => (video_filter_complex, "0:a".data)
  | some d =>
      (video_filter_complex ++ ";".data ++ _get_audio_mix_filter au d none,
        "[aout]".data)

/-- C9: with a background track the compiled graph is the video chain
followed by the audio-mix fragment, which contains the loop fragment
truncated at exactly `int(duration * 48000)` samples, the bgm-volume and
original-volume gains, and the two-input mix pinned to the first input's
duration, and audio is mapped from `[aout]`; without a track the graph
is the video chain alone — no loop and no mix fragment — and audio is
mapped from the raw source stream `0:a`. -/
theorem claim_C9_audio_mix_graph (au : AudioSettings) (width height : ℕ)
    (crop_x : Str) (sub_filter : Option Str) (d : ℚ) :
    ((optimizedFilterAndMap au width height crop_x sub_filter (some d)).1
        = "[0:v]".data ++ videoFilterChain width height crop_x sub_filter
          ++ "[vout]".data ++ ";".data ++ _get_audio_mix_filter au d none)
    ∧ (optimizedFilterAndMap au width height crop_x sub_filter (some d)).2
        = "[aout]".data
    ∧ (("aloop=loop=-1:size=".data ++ intToStr (pyInt (d * 48000)) ++ "[bgm]".data)
        <:+: (optimizedFilterAndMap au width height crop_x sub_filter (some d)).1)
    ∧ ("amix=inputs=2:duration=first[aout]".data
        <:+: (optimizedFilterAndMap au width height crop_x sub_filter (some d)).1)
    ∧ (("[1:a]volume=".data ++ showQ au.bgm_volume)
        <:+: (optimizedFilterAndMap au width height crop_x sub_filter (some d)).1)
    ∧ (("[0:a]volume=".data ++ showQ au.original_audio_volume)
        <:+: (optimizedFilterAndMap au width height crop_x sub_filter (some d)).1)
    ∧ (optimizedFilterAndMap au width height crop_x sub_filter none).1
        = "[0:v]".data ++ videoFilterChain width height crop_x sub_filter
          ++ "[vout]".data
    ∧ (optimizedFilterAndMap au width height crop_x sub_filter none).2
        = "0:a".data := by
  refine ⟨by simp [optimizedFilterAndMap, List.append_assoc], rfl, ?_, ?_, ?_, ?_, rfl, rfl⟩
  · refine ⟨"[0:v]".data ++ videoFilterChain width height crop_x sub_filter
      ++ "[vout]".data ++ ";".data ++ "[1:a]volume=".data ++ showQ au.bgm_volume
      ++ ",".data,
      ";[0:a]volume=".data ++ showQ au.original_audio_volume
        ++ "[original];[original][bgm]amix=inputs=2:duration=first[aout]".data, ?_⟩
    show _ = "[0:v]".data ++ videoFilterChain width height crop_x sub_filter
      ++ "[vout]".data ++ ";".data ++ _get_audio_mix_filter au d none
    unfold _get_audio_mix_filter
    have h1 : (",aloop=loop=-1:size=".data : Str)
        = ",".data ++ "aloop=loop=-1:size=".data := by decide
    have h2 : ("[bgm];[0:a]volume=".data : Str)
        = "[bgm]".data ++ ";[0:a]volume=".data := by decide
    rw [h1, h2]
    simp [List.append_assoc]
  · refine ⟨"[0:v]".data ++ videoFilterChain width height crop_x sub_filter
      ++ "[vout]".data ++ ";".data ++ "[1:a]volume=".data ++ showQ au.bgm_volume
      ++ ",aloop=loop=-1:size=".data ++ intToStr (pyInt (d * 48000))
      ++ "[bgm];[0:a]volume=".data ++ showQ au.original_audio_volume
      ++ "[original];[original][bgm]".data, [], ?_⟩
    show _ = "[0:v]".data ++ videoFilterChain width height crop_x sub_filter
      ++ "[vout]".data ++ ";".data ++ _get_audio_mix_filter au d none
    unfold _get_audio_mix_filter
    have h3 : ("[original];[original][bgm]amix=inputs=2:duration=first[aout]".data : Str)
        = "[original];[original][bgm]".data
          ++ "amix=inputs=2:duration=first[aout]".data := by decide
    rw [h3]
    simp [List.append_assoc]
  · refine ⟨"[0:v]".data ++ videoFilterChain width height crop_x sub_filter
      ++ "[vout]".data ++ ";".data,
      ",aloop=loop=-1:size=".data ++ intToStr (pyInt (d * 48000))
        ++ "[bgm];[0:a]volume=".data ++ showQ au.original_audio_volume
        ++ "[original];[original][bgm]amix=inputs=2:duration=first[aout]".data, ?_⟩
    show _ = "[0:v]".data ++ videoFilterChain width height crop_x sub_filter
      ++ "[vout]".data ++ ";".data ++ _get_audio_mix_filter au d none
    unfold _get_audio_mix_filter
    simp [List.append_assoc]
  · refine ⟨"[0:v]".data ++ videoFilterChain width height crop_x sub_filter
      ++ "[vout]".data ++ ";".data ++ "[1:a]volume=".data ++ showQ au.bgm_volume
      ++ ",aloop=loop=-1:size=".data ++ intToStr (pyInt (d * 48000))
      ++ "[bgm];".data,
      "[original];[original][bgm]amix=inputs=2:duration=first[aout]".data, ?_⟩
    show _ = "[0:v]".data ++ videoFilterChain width height crop_x sub_filter
      ++ "[vout]".data ++ ";".data ++ _get_audio_mix_filter au d none
    unfold _get_audio_mix_filter
    have h4 : ("[bgm];[0:a]volume=".data : Str)
        = "[bgm];".data ++ "[0:a]volume=".data := by decide
    rw [h4]
    simp [List.append_assoc]

/-! ## The render pipeline (`processor.create_final_clip`, claims C2 and C10)

External effects are modelled by an explicit state: `rng` is the
`random` module's stream of picks, `io` the outcomes of successive
external effects (subprocess exits, file writes, directory listings),
and `trace` an instrumentation log.  A Python exception is
`Except.error`; the state at the raise point is preserved, as the real
interpreter preserves the `random` state and filesystem. -/

inductive PErr
  | ffmpeg (tag : Str)
  | ioFail (tag : Str)
deriving DecidableEq

inductive Ev
  | engine (tag : Str) (ok : Bool)
  | probe (ok : Bool)
  | io (tag : Str) (ok : Bool)
  | bgmSelected (track : Option Str)
  | fallbackEntered
deriving DecidableEq

structure PState where
  rng : List ℕ
  io : List Bool
  trace : List Ev
deriving DecidableEq

abbrev M (α : Type) := PState → Except PErr α × PState

instance : Monad M where
  pure a := fun s => (.ok a, s)
  bind m k := fun s =>
    match m s with
    | (.ok a, s') => k a s'
    | (.error e, s') => (.error e, s')

/-- `try ... except ...`. -/
def tryCatchM {α : Type} (m : M α) (h : PErr → M α) : M α := fun s =>
  match m s with
  | (.ok a, s') => (.ok a, s')
  | (.error e, s') => h e s'

def throwP {α : Type} (e : PErr) : M α := fun s => (.error e, s)

def popOutcome : M Bool := fun s =>
  match s.io with
  | [] => (.ok true, s)
  | b :: rest => (.ok b, { s with io := rest })

def popRng : M ℕ := fun s =>
  match s.rng with
  | [] => (.ok 0, s)
  | n :: rest => (.ok n, { s with rng := rest })

def emit (e : Ev) : M Unit := fun s => (.ok (), { s with trace := s.trace ++ [e] })

/-- One ffmpeg invocation; a non-zero exit raises
(`raise Exception(f"FFmpeg ... error: ...")`). -/
def runEngine (tag : Str) : M Unit := do
  let ok ← popOutcome
  emit (.engine tag ok)
  if ok then pure () else throwP (.ffmpeg tag)

/-- A filesystem effect (`open(...).write`, `bgm_dir.glob`,
`shutil.copy`); failure raises `OSError`. -/
def ioStep (tag : Str) : M Unit := do
  let ok ← popOutcome
  emit (.io tag ok)
  if ok then pure () else throwP (.ioFail tag)

/-- `_get_video_duration`: ffprobe's non-zero exit and unparsable output
are caught inside and degrade to `30.0`; the call never raises. -/
def probeDuration (d : ℚ) : M ℚ := do
  let ok ← popOutcome
  emit (.probe ok)
  if ok then pure d else pure 30

/-- `random.choice` on a non-empty list, driven by the rng stream. -/
def randomChoice (xs : List Str) : M Str := do
  let n ← popRng
  pure (xs.getD (n % xs.length) [])

/-- The `mood_patterns` table with its `.get(mood.lower(),
[mood.lower()])` fallback. -/
def moodPatterns (mood : Str) : List Str :=
  let m := pyLower mood
  if m = "energetic".data then
    ["energetic".data, "upbeat".data, "hype".data, "energy".data]
  else if m = "emotional".data then
    ["emotional".data, "sad".data, "touching".data, "piano".data]
  else if m = "funny".data then
    ["funny".data, "comedy".data, "quirky".data, "fun".data]
  else if m = "dramatic".data then
    ["dramatic".data, "epic".data, "intense".data, "cinematic".data]
  else if m = "chill".data then
    ["chill".data, "lofi".data, "relax".data, "calm".data]
  else [m]

/-- `for pattern in patterns: matching = [f for f in all_bgm if pattern
in f.stem.lower()]; if matching: ...` — the first pattern with a
non-empty match set. -/
def findMatch (patterns : List Str) (all_bgm : List Str) : Option (List Str) :=
  match patterns with
  | [] => none
  | p :: rest =>
    let matching := all_bgm.filter fun f => decide (p <:+: pyLower f)
    if matching ≠ [] then some matching else findMatch rest all_bgm

/-- `processor.select_bgm_by_mood`: `bgmFiles` is the stem list the
`glob` calls return (the listing itself may raise). -/
def select_bgm_by_mood (bgmFiles : List Str) (mood : Str) : M (Option Str) := do
  ioStep "glob_bgm".data
  if bgmFiles = [] then do
    emit (.bgmSelected none)
    pure none
  else
    match findMatch (moodPatterns mood) bgmFiles with
    | some matching => do
        let t ← randomChoice matching
        emit (.bgmSelected (some t))
        pure (some t)
    | none => do
        let t ← randomChoice bgmFiles
        emit (.bgmSelected (some t))
        pure (some t)

/-- The caller-side inputs and environment facts the pipeline reads. -/
structure PipelineEnv where
  bgmFiles : List Str
  duration : ℚ
  captionStyleAnimated : Bool
  tempDir : Str
  outputDir : Str

structure ClipInfo where
  caption_title : Option Str
  mood : Option Str
  hook : Option Str
  narrative_type : Option Str
  reason : Option Str
  enhanced_caption : Option Str

structure RRes where
  video : Str
  thumbnail : Str
  caption_file : Str
  caption_text : Str
  mood : Str
deriving DecidableEq

/-- `safe_title`: keep alphanumerics and `" -_"`, truncate to 50,
strip, default to `f"clip_{clip_number}"`.  (Python's `isalnum` is
Unicode-aware; `Char.isAlphanum` covers the ASCII inputs in use.) -/
def safeTitle (clip : ClipInfo) (clip_number : ℕ) : Str :=
  let title := clip.caption_title.getD ("clip_".data ++ natToStr clip_number)
  let filtered := title.filter fun c =>
    c.isAlphanum || c = ' ' || c = '-' || c = '_'
  let trimmed := pyStrip (filtered.take 50)
  if trimmed = [] then "clip_".data ++ natToStr clip_number else trimmed

/-- `base_name = f"{clip_number:02d}_{safe_title}"`. -/
def baseName (clip : ClipInfo) (clip_number : ℕ) : Str :=
  intPad 2 (clip_number : ℤ) ++ "_".data ++ safeTitle clip clip_number

/-- The caption-text file contents (steps 6 of both pipelines build the
identical string). -/
def captionText (clip : ClipInfo) (mood : Str) : Str :=
  let hook := clip.hook.getD []
  let narrative_type := clip.narrative_type.getD "story".data
  let caption_title := clip.caption_title.getD []
  let reason := clip.reason.getD []
  let enhanced_caption := clip.enhanced_caption.getD []
  (if enhanced_caption ≠ [] then enhanced_caption else caption_title)
    ++ "\n\n--- METADATA ---\n".data
    ++ (if hook ≠ [] then "Hook: ".data ++ hook ++ "\n".data else [])
    ++ reason ++ "\n".data
    ++ "Type: ".data ++ narrative_type ++ " | Mood: ".data ++ mood ++ "\n".data

/-- The caption file path derived in step 2 of both pipelines (same
deterministic name in both). -/
def subtitlePathOf (env : PipelineEnv) (clip : ClipInfo) (segments : List Seg)
    (clip_number : ℕ) : Option Str :=
  if segments ≠ [] then
    if env.captionStyleAnimated then
      some (env.tempDir ++ "/".data ++ baseName clip clip_number ++ ".ass".data)
    else
      some (env.tempDir ++ "/".data ++ baseName clip clip_number ++ ".srt".data)
  else none

/-- The output path the optimized attempt targets
(`output_dir / f"{base_name}.mp4"`). -/
def finalVideoPath (env : PipelineEnv) (clip : ClipInfo) (clip_number : ℕ) : Str :=
  env.outputDir ++ "/".data ++ baseName clip clip_number ++ ".mp4".data

/-- `_create_final_clip_optimized`: crop analysis (never raises),
caption-file generation, BGM selection, the single ffmpeg pass, the
thumbnail (probe + frame grab), and the caption-text write. -/
def optimizedClip (env : PipelineEnv) (clip : ClipInfo) (segments : List Seg)
    (clip_number : ℕ) : M RRes := do
  let base := baseName clip clip_number
  (match subtitlePathOf env clip segments clip_number with
   | some _ => ioStep "write_captions".data
   | none => pure ())
  let mood := clip.mood.getD "chill".data
  let bgm ← select_bgm_by_mood env.bgmFiles mood
  (match bgm with
   | some _ => do
       let _ ← probeDuration env.duration
       pure ()
   | none => pure ())
  runEngine "optimized_pass".data
  let _ ← probeDuration env.duration
  runEngine "thumbnail".data
  ioStep "write_caption_txt".data
  pure { video := finalVideoPath env clip clip_number,
         thumbnail := env.outputDir ++ "/".data ++ base ++ "_thumbnail.jpg".data,
         caption_file := env.outputDir ++ "/".data ++ base ++ "_caption.txt".data,
         caption_text := captionText clip mood,
         mood := mood }

/-- `burn_captions`: on a non-zero exit, one retry with the simpler
subtitle command; a second failure raises. -/
def burn_captions : M Unit :=
  tryCatchM (runEngine "burn".data) fun _ => runEngine "burn_simple".data

/-- The sequential fallback body inside `create_final_clip`'s `except`
block: it re-derives captions and BGM from the original inputs. -/
def fallbackSequential (env : PipelineEnv) (clip : ClipInfo) (segments : List Seg)
    (clip_number : ℕ) : M RRes := do
  let base := baseName clip clip_number
  runEngine "vertical".data
  (match subtitlePathOf env clip segments clip_number with
   | some _ => do
       ioStep "write_captions".data
       burn_captions
   | none => pure ())
  let mood := clip.mood.getD "chill".data
  let bgm ← select_bgm_by_mood env.bgmFiles mood
  (match bgm with
   | some _ => do
       let _ ← probeDuration env.duration
       runEngine "mix".data
   | none => ioStep "copy".data)
  let _ ← probeDuration env.duration
  runEngine "thumbnail".data
  ioStep "write_caption_txt".data
  pure { video := finalVideoPath env clip clip_number,
         thumbnail := env.outputDir ++ "/".data ++ base ++ "_thumbnail.jpg".data,
         caption_file := env.outputDir ++ "/".data ++ base ++ "_caption.txt".data,
         caption_text := captionText clip mood,
         mood := mood }

/-- `create_final_clip`: try the optimized single pass; on any
exception, run the sequential pipeline once.  The sequential pipeline's
own failure is not caught. -/
def create_final_clip_m (env : PipelineEnv) (clip : ClipInfo) (segments : List Seg)
    (clip_number : ℕ) : M RRes :=
  tryCatchM (optimizedClip env clip segments clip_number) fun _ => do
    emit .fallbackEntered
    fallbackSequential env clip segments clip_number

lemma M_bind_def {α β : Type} (m : M α) (k : α → M β) (s : PState) :
    (m >>= k) s = match m s with
      | (.ok a, s') => k a s'
      | (.error e, s') => (.error e, s') := rfl

lemma M_pure_def {α : Type} (a : α) (s : PState) :
    (pure a : M α) s = (.ok a, s) := rfl

/-- `m` neither adds nor removes `fallbackEntered` events. -/
def KeepsFB {α : Type} (m : M α) : Prop :=
  ∀ s, ((m s).2).trace.count Ev.fallbackEntered = s.trace.count Ev.fallbackEntered

lemma keepsFB_bind {α β : Type} {m : M α} {k : α → M β}
    (hm : KeepsFB m) (hk : ∀ a, KeepsFB (k a)) : KeepsFB (m >>= k) := by
  intro s
  rw [M_bind_def]
  rcases hres : m s with ⟨res, s₁⟩
  have h1 : s₁.trace.count Ev.fallbackEntered = s.trace.count Ev.fallbackEntered := by
    have := hm s
    rw [hres] at this
    exact this
  cases res with
  | ok a => rw [hk a s₁, h1]
  | error e => exact h1

lemma keepsFB_pure {α : Type} (a : α) : KeepsFB (pure a : M α) := fun _ => rfl

lemma keepsFB_throwP {α : Type} (e : PErr) : KeepsFB (throwP e : M α) := fun _ => rfl

lemma keepsFB_popOutcome : KeepsFB popOutcome := by
  intro s
  unfold popOutcome
  cases s.io <;> rfl

lemma keepsFB_popRng : KeepsFB popRng := by
  intro s
  unfold popRng
  cases s.rng <;> rfl

lemma keepsFB_emit {e : Ev} (h : e ≠ Ev.fallbackEntered) : KeepsFB (emit e) := by
  intro s
  unfold emit
  simp [List.count_append, List.count_cons, h]

lemma keepsFB_ite {α : Type} {c : Prop} [Decidable c] {m₁ m₂ : M α}
    (h1 : KeepsFB m₁) (h2 : KeepsFB m₂) : KeepsFB (if c then m₁ else m₂) := by
  by_cases hc : c
  · rw [if_pos hc]; exact h1
  · rw [if_neg hc]; exact h2

lemma keepsFB_runEngine (tag : Str) : KeepsFB (runEngine tag) := by
  unfold runEngine
  exact keepsFB_bind keepsFB_popOutcome fun ok =>
    keepsFB_bind (keepsFB_emit (by simp)) fun _ =>
      keepsFB_ite (keepsFB_pure ()) (keepsFB_throwP _)

lemma keepsFB_ioStep (tag : Str) : KeepsFB (ioStep tag) := by
  unfold ioStep
  exact keepsFB_bind keepsFB_popOutcome fun ok =>
    keepsFB_bind (keepsFB_emit (by simp)) fun _ =>
      keepsFB_ite (keepsFB_pure ()) (keepsFB_throwP _)

lemma keepsFB_probe (d : ℚ) : KeepsFB (probeDuration d) := by
  unfold probeDuration
  exact keepsFB_bind keepsFB_popOutcome fun ok =>
    keepsFB_bind (keepsFB_emit (by simp)) fun _ =>
      keepsFB_ite (keepsFB_pure _) (keepsFB_pure _)

lemma keepsFB_randomChoice (xs : List Str) : KeepsFB (randomChoice xs) := by
  unfold randomChoice
  exact keepsFB_bind keepsFB_popRng fun _ => keepsFB_pure _

lemma keepsFB_select (files : List Str) (mood : Str) :
    KeepsFB (select_bgm_by_mood files mood) := by
  unfold select_bgm_by_mood
  refine keepsFB_bind (keepsFB_ioStep _) fun _ => ?_
  refine keepsFB_ite ?_ ?_
  · exact keepsFB_bind (keepsFB_emit (by simp)) fun _ => keepsFB_pure _
  · cases findMatch (moodPatterns mood) files with
    | none =>
      exact keepsFB_bind (keepsFB_randomChoice _) fun t =>
        keepsFB_bind (keepsFB_emit (by simp)) fun _ => keepsFB_pure _
    | some matching =>
      exact keepsFB_bind (keepsFB_randomChoice _) fun t =>
        keepsFB_bind (keepsFB_emit (by simp)) fun _ => keepsFB_pure _

lemma keepsFB_tryCatch {α : Type} {m : M α} {h : PErr → M α}
    (hm : KeepsFB m) (hh : ∀ e, KeepsFB (h e)) : KeepsFB (tryCatchM m h) := by
  intro s
  unfold tryCatchM
  rcases hres : m s with ⟨res, s₁⟩
  have h1 : s₁.trace.count Ev.fallbackEntered = s.trace.count Ev.fallbackEntered := by
    have := hm s
    rw [hres] at this
    exact this
  cases res with
  | ok a => exact h1
  | error e => rw [hh e s₁, h1]

lemma keepsFB_optimized (env : PipelineEnv) (clip : ClipInfo) (segments : List Seg)
    (clip_number : ℕ) : KeepsFB (optimizedClip env clip segments clip_number) := by
  unfold optimizedClip
  refine keepsFB_bind ?_ fun _ => ?_
  · cases subtitlePathOf env clip segments clip_number with
    | some p => exact keepsFB_ioStep _
    | none => exact keepsFB_pure _
  refine keepsFB_bind (keepsFB_select _ _) fun bgm => ?_
  refine keepsFB_bind ?_ fun _ => ?_
  · cases bgm with
    | some t => exact keepsFB_bind (keepsFB_probe _) fun _ => keepsFB_pure _
    | none => exact keepsFB_pure _
  refine keepsFB_bind (keepsFB_runEngine _) fun _ => ?_
  refine keepsFB_bind (keepsFB_probe _) fun _ => ?_
  refine keepsFB_bind (keepsFB_runEngine _) fun _ => ?_
  exact keepsFB_bind (keepsFB_ioStep _) fun _ => keepsFB_pure _

lemma keepsFB_burn : KeepsFB burn_captions :=
  keepsFB_tryCatch (keepsFB_runEngine _) fun _ => keepsFB_runEngine _

lemma keepsFB_fallback (env : PipelineEnv) (clip : ClipInfo) (segments : List Seg)
    (clip_number : ℕ) : KeepsFB (fallbackSequential env clip segments clip_number) := by
  unfold fallbackSequential
  refine keepsFB_bind (keepsFB_runEngine _) fun _ => ?_
  refine keepsFB_bind ?_ fun _ => ?_
  · cases subtitlePathOf env clip segments clip_number with
    | some p => exact keepsFB_bind (keepsFB_ioStep _) fun _ => keepsFB_burn
    | none => exact keepsFB_pure _
  refine keepsFB_bind (keepsFB_select _ _) fun bgm => ?_
  refine keepsFB_bind ?_ fun _ => ?_
  · cases bgm with
    | some t =>
      exact keepsFB_bind (keepsFB_probe _) fun _ => keepsFB_runEngine _
    | none => exact keepsFB_ioStep _
  refine keepsFB_bind (keepsFB_probe _) fun _ => ?_
  refine keepsFB_bind (keepsFB_runEngine _) fun _ => ?_
  exact keepsFB_bind (keepsFB_ioStep _) fun _ => keepsFB_pure _

/-- All errors `m` can raise lie in `E`. -/
def ErrIn {α : Type} (m : M α) (E : List PErr) : Prop :=
  ∀ s e s', m s = (.error e, s') → e ∈ E

lemma errIn_bind {α β : Type} {m : M α} {k : α → M β} {E : List PErr}
    (hm : ErrIn m E) (hk : ∀ a, ErrIn (k a) E) : ErrIn (m >>= k) E := by
  intro s e s' h
  rw [M_bind_def] at h
  rcases hres : m s with ⟨res, s₁⟩
  rw [hres] at h
  cases res with
  | ok a => exact hk a s₁ e s' h
  | error e₁ =>
    simp only [Prod.mk.injEq, Except.error.injEq] at h
    exact h.1 ▸ hm s e₁ s₁ hres

lemma errIn_pure {α : Type} (a : α) (E : List PErr) : ErrIn (pure a : M α) E := by
  intro s e s' h
  simp [M_pure_def] at h

lemma errIn_throwP {α : Type} {e₀ : PErr} {E : List PErr} (h : e₀ ∈ E) :
    ErrIn (throwP e₀ : M α) E := by
  intro s e s' hh
  unfold throwP at hh
  simp only [Prod.mk.injEq, Except.error.injEq] at hh
  exact hh.1 ▸ h

lemma errIn_popOutcome (E : List PErr) : ErrIn popOutcome E := by
  intro s e s' h
  unfold popOutcome at h
  rcases hio : s.io with - | ⟨b, rest⟩ <;> rw [hio] at h <;> simp at h

lemma errIn_popRng (E : List PErr) : ErrIn popRng E := by
  intro s e s' h
  unfold popRng at h
  rcases hio : s.rng with - | ⟨n, rest⟩ <;> rw [hio] at h <;> simp at h

lemma errIn_emit (ev : Ev) (E : List PErr) : ErrIn (emit ev) E := by
  intro s e s' h
  simp [emit] at h

lemma errIn_ite {α : Type} {c : Prop} [Decidable c] {m₁ m₂ : M α} {E : List PErr}
    (h1 : ErrIn m₁ E) (h2 : ErrIn m₂ E) : ErrIn (if c then m₁ else m₂) E := by
  by_cases hc : c
  · rw [if_pos hc]; exact h1
  · rw [if_neg hc]; exact h2

lemma errIn_runEngine {tag : Str} {E : List PErr} (h : PErr.ffmpeg tag ∈ E) :
    ErrIn (runEngine tag) E := by
  unfold runEngine
  exact errIn_bind (errIn_popOutcome E) fun ok =>
    errIn_bind (errIn_emit _ E) fun _ =>
      errIn_ite (errIn_pure () E) (errIn_throwP h)

lemma errIn_ioStep {tag : Str} {E : List PErr} (h : PErr.ioFail tag ∈ E) :
    ErrIn (ioStep tag) E := by
  unfold ioStep
  exact errIn_bind (errIn_popOutcome E) fun ok =>
    errIn_bind (errIn_emit _ E) fun _ =>
      errIn_ite (errIn_pure () E) (errIn_throwP h)

lemma errIn_probe (d : ℚ) (E : List PErr) : ErrIn (probeDuration d) E := by
  unfold probeDuration
  exact errIn_bind (errIn_popOutcome E) fun ok =>
    errIn_bind (errIn_emit _ E) fun _ =>
      errIn_ite (errIn_pure _ E) (errIn_pure _ E)

lemma errIn_randomChoice (xs : List Str) (E : List PErr) : ErrIn (randomChoice xs) E := by
  unfold randomChoice
  exact errIn_bind (errIn_popRng E) fun _ => errIn_pure _ E

lemma errIn_select {files : List Str} {mood : Str} {E : List PErr}
    (h : PErr.ioFail "glob_bgm".data ∈ E) :
    ErrIn (select_bgm_by_mood files mood) E := by
  unfold select_bgm_by_mood
  refine errIn_bind (errIn_ioStep h) fun _ => ?_
  refine errIn_ite ?_ ?_
  · exact errIn_bind (errIn_emit _ E) fun _ => errIn_pure _ E
  · cases findMatch (moodPatterns mood) files with
    | none =>
      exact errIn_bind (errIn_randomChoice _ E) fun t =>
        errIn_bind (errIn_emit _ E) fun _ => errIn_pure _ E
    | some matching =>
      exact errIn_bind (errIn_randomChoice _ E) fun t =>
        errIn_bind (errIn_emit _ E) fun _ => errIn_pure _ E

/-- The failure sites of the optimized attempt: caption-file write, BGM
directory listing, the single-pass render, the thumbnail grab, and the
caption-metadata write. -/
def optimizedErrs : List PErr :=
  [.ioFail "write_captions".data, .ioFail "glob_bgm".data,
    .ffmpeg "optimized_pass".data, .ffmpeg "thumbnail".data,
    .ioFail "write_caption_txt".data]

lemma errIn_optimized (env : PipelineEnv) (clip : ClipInfo) (segments : List Seg)
    (clip_number : ℕ) :
    ErrIn (optimizedClip env clip segments clip_number) optimizedErrs := by
  unfold optimizedClip
  refine errIn_bind ?_ fun _ => ?_
  · cases subtitlePathOf env clip segments clip_number with
    | some p => exact errIn_ioStep (by simp [optimizedErrs])
    | none => exact errIn_pure _ _
  refine errIn_bind (errIn_select (by simp [optimizedErrs])) fun bgm => ?_
  refine errIn_bind ?_ fun _ => ?_
  · cases bgm with
    | some t => exact errIn_bind (errIn_probe _ _) fun _ => errIn_pure _ _
    | none => exact errIn_pure _ _
  refine errIn_bind (errIn_runEngine (by simp [optimizedErrs])) fun _ => ?_
  refine errIn_bind (errIn_probe _ _) fun _ => ?_
  refine errIn_bind (errIn_runEngine (by simp [optimizedErrs])) fun _ => ?_
  exact errIn_bind (errIn_ioStep (by simp [optimizedErrs])) fun _ => errIn_pure _ _

/-- Ok-results of `m` satisfy `P`. -/
def OkVal {α : Type} (m : M α) (P : α → Prop) : Prop :=
  ∀ s r s', m s = (.ok r, s') → P r

lemma okVal_bind {α β : Type} {m : M α} {k : α → M β} {P : β → Prop}
    (hk : ∀ a, OkVal (k a) P) : OkVal (m >>= k) P := by
  intro s r s' h
  rw [M_bind_def] at h
  rcases hres : m s with ⟨res, s₁⟩
  rw [hres] at h
  cases res with
  | ok a => exact hk a s₁ r s' h
  | error e => simp at h

lemma okVal_pure {α : Type} {a : α} {P : α → Prop} (h : P a) : OkVal (pure a : M α) P := by
  intro s r s' hh
  rw [M_pure_def] at hh
  simp only [Prod.mk.injEq, Except.ok.injEq] at hh
  exact hh.1 ▸ h

lemma okVal_optimized (env : PipelineEnv) (clip : ClipInfo) (segments : List Seg)
    (clip_number : ℕ) :
    OkVal (optimizedClip env clip segments clip_number)
      (fun r => r.video = finalVideoPath env clip clip_number) := by
  unfold optimizedClip
  exact okVal_bind fun _ => okVal_bind fun bgm => okVal_bind fun _ =>
    okVal_bind fun _ => okVal_bind fun _ => okVal_bind fun _ =>
      okVal_bind fun _ => okVal_pure rfl

lemma okVal_fallback (env : PipelineEnv) (clip : ClipInfo) (segments : List Seg)
    (clip_number : ℕ) :
    OkVal (fallbackSequential env clip segments clip_number)
      (fun r => r.video = finalVideoPath env clip clip_number) := by
  unfold fallbackSequential
  exact okVal_bind fun _ => okVal_bind fun _ => okVal_bind fun bgm =>
    okVal_bind fun _ => okVal_bind fun _ => okVal_bind fun _ =>
      okVal_bind fun _ => okVal_pure rfl

/-- C10: any exception raised anywhere inside the optimized attempt —
the possible sites being exactly caption-file generation, the BGM
directory listing, the single-pass engine invocation, thumbnail
generation, and the caption-metadata write — transfers control to the
sequential fallback, which re-runs the entire pipeline from the
original inputs; each of the five sites is reachable (shown at a
concrete input per site). -/
theorem claim_C10_any_exception_triggers_fallback
    (env : PipelineEnv) (clip : ClipInfo) (segments : List Seg) (clip_number : ℕ)
    (s : PState) (e : PErr) (s' : PState)
    (hfail : optimizedClip env clip segments clip_number s = (.error e, s')) :
    (create_final_clip_m env clip segments clip_number s
      = fallbackSequential env clip segments clip_number
          { s' with trace := s'.trace ++ [Ev.fallbackEntered] })
    ∧ e ∈ optimizedErrs
    ∧ (optimizedClip ⟨["chilla".data], 30, true, "tmp".data, "out".data⟩
        ⟨some "T".data, some "chill".data, none, none, none, none⟩
        [⟨0, 1, "hi there".data⟩] 1 ⟨[0], [false], []⟩).1
        = .error (.ioFail "write_captions".data)
    ∧ (optimizedClip ⟨["chilla".data], 30, true, "tmp".data, "out".data⟩
        ⟨some "T".data, some "chill".data, none, none, none, none⟩
        [⟨0, 1, "hi there".data⟩] 1 ⟨[0], [true, false], []⟩).1
        = .error (.ioFail "glob_bgm".data)
    ∧ (optimizedClip ⟨["chilla".data], 30, true, "tmp".data, "out".data⟩
        ⟨some "T".data, some "chill".data, none, none, none, none⟩
        [⟨0, 1, "hi there".data⟩] 1 ⟨[0], [true, true, true, false], []⟩).1
        = .error (.ffmpeg "optimized_pass".data)
    ∧ (optimizedClip ⟨["chilla".data], 30, true, "tmp".data, "out".data⟩
        ⟨some "T".data, some "chill".data, none, none, none, none⟩
        [⟨0, 1, "hi there".data⟩] 1
          ⟨[0], [true, true, true, true, true, false], []⟩).1
        = .error (.ffmpeg "thumbnail".data)
    ∧ (optimizedClip ⟨["chilla".data], 30, true, "tmp".data, "out".data⟩
        ⟨some "T".data, some "chill".data, none, none, none, none⟩
        [⟨0, 1, "hi there".data⟩] 1
          ⟨[0], [true, true, true, true, true, true, false], []⟩).1
        = .error (.ioFail "write_caption_txt".data) := by
  refine ⟨?_, errIn_optimized env clip segments clip_number s e s' hfail,
    by decide, by decide, by decide, by decide, by decide⟩
  unfold create_final_clip_m tryCatchM
  rw [hfail]
  rfl

/-- C10 witness: the theorem applied to the concrete failing-engine
scenario (site 3), with the post-failure state written out. -/
theorem claim_C10_witness :
    (optimizedClip ⟨["chilla".data], 30, true, "tmp".data, "out".data⟩
        ⟨some "T".data, some "chill".data, none, none, none, none⟩
        [⟨0, 1, "hi there".data⟩] 1 ⟨[0], [true, true, true, false], []⟩
      = (.error (.ffmpeg "optimized_pass".data),
          ⟨[], [],
            [.io "write_captions".data true, .io "glob_bgm".data true,
              .bgmSelected (some "chilla".data), .probe true,
              .engine "optimized_pass".data false]⟩))
    ∧ ((create_final_clip_m ⟨["chilla".data], 30, true, "tmp".data, "out".data⟩
        ⟨some "T".data, some "chill".data, none, none, none, none⟩
        [⟨0, 1, "hi there".data⟩] 1 ⟨[0], [true, true, true, false], []⟩
      = fallbackSequential ⟨["chilla".data], 30, true, "tmp".data, "out".data⟩
          ⟨some "T".data, some "chill".data, none, none, none, none⟩
          [⟨0, 1, "hi there".data⟩] 1
          { (⟨[], [],
              [.io "write_captions".data true, .io "glob_bgm".data true,
                .bgmSelected (some "chilla".data), .probe true,
                .engine "optimized_pass".data false]⟩ : PState) with
            trace := [.io "write_captions".data true, .io "glob_bgm".data true,
                .bgmSelected (some "chilla".data), .probe true,
                .engine "optimized_pass".data false] ++ [Ev.fallbackEntered] })
      ∧ (.ffmpeg "optimized_pass".data) ∈ optimizedErrs
      ∧ (optimizedClip ⟨["chilla".data], 30, true, "tmp".data, "out".data⟩
          ⟨some "T".data, some "chill".data, none, none, none, none⟩
          [⟨0, 1, "hi there".data⟩] 1 ⟨[0], [false], []⟩).1
          = .error (.ioFail "write_captions".data)
      ∧ (optimizedClip ⟨["chilla".data], 30, true, "tmp".data, "out".data⟩
          ⟨some "T".data, some "chill".data, none, none, none, none⟩
          [⟨0, 1, "hi there".data⟩] 1 ⟨[0], [true, false], []⟩).1
          = .error (.ioFail "glob_bgm".data)
      ∧ (optimizedClip ⟨["chilla".data], 30, true, "tmp".data, "out".data⟩
          ⟨some "T".data, some "chill".data, none, none, none, none⟩
          [⟨0, 1, "hi there".data⟩] 1 ⟨[0], [true, true, true, false], []⟩).1
          = .error (.ffmpeg "optimized_pass".data)
      ∧ (optimizedClip ⟨["chilla".data], 30, true, "tmp".data, "out".data⟩
          ⟨some "T".data, some "chill".data, none, none, none, none⟩
          [⟨0, 1, "hi there".data⟩] 1
            ⟨[0], [true, true, true, true, true, false], []⟩).1
          = .error (.ffmpeg "thumbnail".data)
      ∧ (optimizedClip ⟨["chilla".data], 30, true, "tmp".data, "out".data⟩
          ⟨some "T".data, some "chill".data, none, none, none, none⟩
          [⟨0, 1, "hi there".data⟩] 1
            ⟨[0], [true, true, true, true, true, true, false], []⟩).1
          = .error (.ioFail "write_caption_txt".data)) :=
  ⟨by decide,
    claim_C10_any_exception_triggers_fallback
      ⟨["chilla".data], 30, true, "tmp".data, "out".data⟩
      ⟨some "T".data, some "chill".data, none, none, none, none⟩
      [⟨0, 1, "hi there".data⟩] 1 ⟨[0], [true, true, true, false], []⟩
      (.ffmpeg "optimized_pass".data)
      ⟨[], [],
        [.io "write_captions".data true, .io "glob_bgm".data true,
          .bgmSelected (some "chilla".data), .probe true,
          .engine "optimized_pass".data false]⟩
      (by decide)⟩

/-- C2 counterexample: with two BGM files matching the mood and the rng
stream `[0, 1]`, the optimized attempt selects `chilla`, its render
fails, and the fallback re-selects — obtaining `chillb`.  The fallback
therefore does not use the background-track selection the optimized
attempt used; the selections are re-derived. -/
theorem claim_C2_counterexample_bgm_reselected :
    ((create_final_clip_m
        ⟨["chilla".data, "chillb".data], 30, true, "tmp".data, "out".data⟩
        ⟨some "My Clip".data, some "chill".data, none, none, none, none⟩
        [] 1
        ⟨[0, 1], [true, true, false, true, true, true, true, true, true, true],
          []⟩).2.trace.filterMap fun ev =>
          match ev with
          | Ev.bgmSelected t => some t
          | _ => none)
      = [some "chilla".data, some "chillb".data]
    ∧ (some "chilla".data : Option Str) ≠ some "chillb".data
    ∧ ((create_final_clip_m
        ⟨["chilla".data, "chillb".data], 30, true, "tmp".data, "out".data⟩
        ⟨some "My Clip".data, some "chill".data, none, none, none, none⟩
        [] 1
        ⟨[0, 1], [true, true, false, true, true, true, true, true, true, true],
          []⟩).2.trace.count Ev.fallbackEntered) = 1 := by
  refine ⟨by decide, by decide, by decide⟩

/-- C2 (amended): when the optimized attempt fails, the sequential
fallback runs exactly once (exactly one fallback event is added to the
trace, and the fallback's own failure propagates — there is no further
tier); the fallback re-derives the caption file and the background
track from the original inputs rather than reusing the optimized
attempt's selections (the re-derived BGM pick may differ, as the
counterexample shows); and any successful result's video path equals
the output path the optimized attempt targeted. -/
theorem claim_C2_fallback_once_same_target
    (env : PipelineEnv) (clip : ClipInfo) (segments : List Seg) (clip_number : ℕ)
    (s : PState) :
    (∀ r s', optimizedClip env clip segments clip_number s = (.ok r, s') →
      create_final_clip_m env clip segments clip_number s = (.ok r, s')
      ∧ s'.trace.count Ev.fallbackEntered = s.trace.count Ev.fallbackEntered)
    ∧ (∀ e s', optimizedClip env clip segments clip_number s = (.error e, s') →
      create_final_clip_m env clip segments clip_number s
        = fallbackSequential env clip segments clip_number
            { s' with trace := s'.trace ++ [Ev.fallbackEntered] }
      ∧ ((create_final_clip_m env clip segments clip_number s).2).trace.count
            Ev.fallbackEntered
          = s.trace.count Ev.fallbackEntered + 1)
    ∧ (∀ r s', create_final_clip_m env clip segments clip_number s = (.ok r, s') →
      r.video = finalVideoPath env clip clip_number) := by
  refine ⟨?_, ?_, ?_⟩
  · intro r s' h
    constructor
    · unfold create_final_clip_m tryCatchM
      rw [h]
    · have hk := keepsFB_optimized env clip segments clip_number s
      rw [h] at hk
      exact hk
  · intro e s' h
    have hcreate : create_final_clip_m env clip segments clip_number s
        = fallbackSequential env clip segments clip_number
            { s' with trace := s'.trace ++ [Ev.fallbackEntered] } := by
      unfold create_final_clip_m tryCatchM
      rw [h]
      rfl
    refine ⟨hcreate, ?_⟩
    rw [hcreate]
    have hfb := keepsFB_fallback env clip segments clip_number
      { s' with trace := s'.trace ++ [Ev.fallbackEntered] }
    rw [hfb]
    have hopt := keepsFB_optimized env clip segments clip_number s
    rw [h] at hopt
    show (s'.trace ++ [Ev.fallbackEntered]).count Ev.fallbackEntered
      = s.trace.count Ev.fallbackEntered + 1
    rw [List.count_append, hopt]
    simp
  · intro r s' h
    unfold create_final_clip_m tryCatchM at h
    rcases hopt : optimizedClip env clip segments clip_number s with ⟨res, s₁⟩
    rw [hopt] at h
    cases res with
    | ok a =>
      simp only [Prod.mk.injEq, Except.ok.injEq] at h
      exact h.1 ▸ okVal_optimized env clip segments clip_number s a s₁ hopt
    | error e =>
      have h' : fallbackSequential env clip segments clip_number
          { s₁ with trace := s₁.trace ++ [Ev.fallbackEntered] } = (.ok r, s') := h
      exact okVal_fallback env clip segments clip_number _ r s' h'

/-- C2 witness: the amended theorem applied at the counterexample's
concrete inputs. -/
theorem claim_C2_witness :
    (∀ r s', optimizedClip
        ⟨["chilla".data, "chillb".data], 30, true, "tmp".data, "out".data⟩
        ⟨some "My Clip".data, some "chill".data, none, none, none, none⟩ [] 1
        ⟨[0, 1], [true, true, false, true, true, true, true, true, true, true], []⟩
        = (.ok r, s') →
      create_final_clip_m
        ⟨["chilla".data, "chillb".data], 30, true, "tmp".data, "out".data⟩
        ⟨some "My Clip".data, some "chill".data, none, none, none, none⟩ [] 1
        ⟨[0, 1], [true, true, false, true, true, true, true, true, true, true], []⟩
        = (.ok r, s')
      ∧ s'.trace.count Ev.fallbackEntered
          = (⟨[0, 1], [true, true, false, true, true, true, true, true, true, true],
              []⟩ : PState).trace.count Ev.fallbackEntered)
    ∧ (∀ e s', optimizedClip
        ⟨["chilla".data, "chillb".data], 30, true, "tmp".data, "out".data⟩
        ⟨some "My Clip".data, some "chill".data, none, none, none, none⟩ [] 1
        ⟨[0, 1], [true, true, false, true, true, true, true, true, true, true], []⟩
        = (.error e, s') →
      create_final_clip_m
        ⟨["chilla".data, "chillb".data], 30, true, "tmp".data, "out".data⟩
        ⟨some "My Clip".data, some "chill".data, none, none, none, none⟩ [] 1
        ⟨[0, 1], [true, true, false, true, true, true, true, true, true, true], []⟩
        = fallbackSequential
            ⟨["chilla".data, "chillb".data], 30, true, "tmp".data, "out".data⟩
            ⟨some "My Clip".data, some "chill".data, none, none, none, none⟩ [] 1
            { s' with trace := s'.trace ++ [Ev.fallbackEntered] }
      ∧ ((create_final_clip_m
            ⟨["chilla".data, "chillb".data], 30, true, "tmp".data, "out".data⟩
            ⟨some "My Clip".data, some "chill".data, none, none, none, none⟩ [] 1
            ⟨[0, 1], [true, true, false, true, true, true, true, true, true, true],
              []⟩).2).trace.count Ev.fallbackEntered
          = (⟨[0, 1], [true, true, false, true, true, true, true, true, true, true],
              []⟩ : PState).trace.count Ev.fallbackEntered + 1)
    ∧ (∀ r s', create_final_clip_m
        ⟨["chilla".data, "chillb".data], 30, true, "tmp".data, "out".data⟩
        ⟨some "My Clip".data, some "chill".data, none, none, none, none⟩ [] 1
        ⟨[0, 1], [true, true, false, true, true, true, true, true, true, true], []⟩
        = (.ok r, s') →
      r.video = finalVideoPath
        ⟨["chilla".data, "chillb".data], 30, true, "tmp".data, "out".data⟩
        ⟨some "My Clip".data, some "chill".data, none, none, none, none⟩ 1) :=
  claim_C2_fallback_once_same_target
    ⟨["chilla".data, "chillb".data], 30, true, "tmp".data, "out".data⟩
    ⟨some "My Clip".data, some "chill".data, none, none, none, none⟩ [] 1
    ⟨[0, 1], [true, true, false, true, true, true, true, true, true, true], []⟩

/-- C7 witness: the theorem applied to a concrete two-segment list
(one normal segment, one whitespace-only segment) at `wpl = 2`. -/
theorem claim_C7_witness :
    0 < 2
    ∧ ((((srtEntriesForSeg 2 1 ⟨0, 1, "hello brave new world".data⟩).1.map
            fun e => pySplit e.text).flatten
          = pySplit "hello brave new world".data)
      ∧ (pySplit "hello brave new world".data = [] →
          srtEntriesForSeg 2 1 ⟨0, 1, "hello brave new world".data⟩ = ([], 1))
      ∧ ((srtEntriesForSeg 2 1 ⟨0, 1, "hello brave new world".data⟩).2
          = 1 + (srtEntriesForSeg 2 1 ⟨0, 1, "hello brave new world".data⟩).1.length)
      ∧ ((srtEntriesForSeg 2 1 ⟨0, 1, "hello brave new world".data⟩).1.map (·.idx)
          = List.range' 1
              (srtEntriesForSeg 2 1 ⟨0, 1, "hello brave new world".data⟩).1.length)
      ∧ ((generate_srt_from_segments
            [⟨0, 1, "hello brave new world".data⟩, ⟨1, 2, "   ".data⟩] 2).map (·.idx)
          = List.range' 1
              (generate_srt_from_segments
                [⟨0, 1, "hello brave new world".data⟩, ⟨1, 2, "   ".data⟩] 2).length)) :=
  ⟨by decide,
    claim_C7_plain_builder_reconstruction
      [⟨0, 1, "hello brave new world".data⟩, ⟨1, 2, "   ".data⟩] 2
      ⟨0, 1, "hello brave new world".data⟩ 1 (by decide)⟩
